/-
Verification of the lattice-Boltzmann boundary module
(src/espresso/src/core/grid_based_algorithms/lb_boundaries.cpp).

Shallow embedding conventions:
- A boundary object held by `std::shared_ptr<LBBoundary>` is modelled by its
  pointer identity, a natural number.  The registry
  `std::vector<std::shared_ptr<LBBoundary>> lbboundaries` becomes `List Nat`.
- The data behind a pointer (the shape's signed-distance query `calc_dist`,
  the prescribed `velocity`, the surface `charge_density`) lives in a
  `BoundaryEnv` of oracle functions, since shapes are external collaborators.
- Doubles are modelled by rationals; the literal `1e99` used to initialise
  the per-node best distance becomes `(10 : Rat) ^ 99`.
- Mutable per-object state (`net_charge`) and the per-node field array
  (`lbfields`) are modelled as functions updated pointwise.
-/
import Mathlib

namespace LBBoundaries

/-- A 3-vector of rationals, modelling `Utils::Vector3d`. -/
structure Vec3 where
  x : ℚ
  y : ℚ
  z : ℚ
deriving DecidableEq, Repr

/-- The zero vector. -/
def Vec3.zero : Vec3 := ⟨0, 0, 0⟩

/-- Scalar multiplication of a `Vec3`, modelling `operator*` on
`Utils::Vector3d`. -/
def Vec3.smul (c : ℚ) (v : Vec3) : Vec3 := ⟨c * v.x, c * v.y, c * v.z⟩

/-- The data reachable through an `LBBoundary` pointer: the shape's
signed-distance query (`calc_dist`, which reports the signed distance from a
position to the boundary surface), the prescribed slip velocity and the
surface charge density.  Shapes are external collaborators, so these are
oracle functions of the pointer identity. -/
structure BoundaryEnv where
  calc_dist : ℕ → Vec3 → ℚ
  velocity : ℕ → Vec3
  charge_density : ℕ → ℚ

/-- `LBBoundaries::add` (lb_boundaries.cpp:54-58): `emplace_back` appends the
shared pointer to the registry, then calls `on_lbboundary_change()`. -/
def add (l : List ℕ) (b : ℕ) : List ℕ := l ++ [b]

/-- `LBBoundaries::remove` (lb_boundaries.cpp:60-66):
`lbboundaries.erase(std::remove(lbb.begin(), lbb.end(), b), lbb.end())`.
The erase-remove idiom deletes every element comparing equal to `b`
(shared-pointer identity), keeping the others in order: a filter. -/
def remove (l : List ℕ) (b : ℕ) : List ℕ := l.filter (fun x => x ≠ b)

/-- Modelled from the spec: `on_lbboundary_change` (declared in event.hpp,
defined outside this repository slice) "triggers full re-classification" on
every add.  We record the trigger as a boolean paired with the new registry. -/
def addOp (l : List ℕ) (b : ℕ) : List ℕ × Bool := (add l b, true)

/-- Modelled from the spec: `on_lbboundary_change` (declared in event.hpp,
defined outside this repository slice) "triggers full re-classification" on
every remove.  We record the trigger as a boolean paired with the new
registry. -/
def removeOp (l : List ℕ) (b : ℕ) : List ℕ × Bool := (remove l b, true)

/-- The initial value of the per-node best distance, `double dist = 1e99;`
(lb_boundaries.cpp:124 and :243). -/
def INIT_DIST : ℚ := (10 : ℚ) ^ 99

/-- The inner boundary scan of the CPU backend (lb_boundaries.cpp:247-256)
over the list of distances reported at one node.  State: current best
distance `dist`, current best index `the_boundary` (an `int`, `-1` before any
assignment), loop counter `n`.  The update fires on
`dist_tmp < dist || n == 0`. -/
def cpuScanAux : List ℚ → ℚ → ℤ → ℕ → ℚ × ℤ
  | [], dist, best, _ => (dist, best)
  | d :: rest, dist, best, n =>
    if d < dist ∨ n = 0 then cpuScanAux rest d (Int.ofNat n) (n + 1)
    else cpuScanAux rest dist best (n + 1)

/-- The inner boundary scan of the GPU backend (lb_boundaries.cpp:135-143).
Identical shape, except the comparison is written `dist > dist_tmp`. -/
def gpuScanAux : List ℚ → ℚ → ℤ → ℕ → ℚ × ℤ
  | [], dist, best, _ => (dist, best)
  | d :: rest, dist, best, n =>
    if dist > d ∨ n = 0 then gpuScanAux rest d (Int.ofNat n) (n + 1)
    else gpuScanAux rest dist best (n + 1)

/-- One node's CPU-side scan, started from `dist = 1e99` and best index `-1`.
(In the source `the_boundary` is declared once per call of
`lb_init_boundaries` and carried across nodes; with a non-empty registry the
`n == 0` branch overwrites it at every node, and with an empty registry it is
never assigned and keeps its initial `-1`, so starting each node at `-1` is
extensionally the same.) -/
def cpuScan (dists : List ℚ) : ℚ × ℤ := cpuScanAux dists INIT_DIST (-1) 0

/-- One node's GPU-side scan, started from `dist = 1e99` and
`boundary_number = -1` (same carried-variable remark as for `cpuScan`). -/
def gpuScan (dists : List ℚ) : ℚ × ℤ := gpuScanAux dists INIT_DIST (-1) 0

/-- Specification-side best pair: the minimum of a list together with the
least index attaining it (ties broken towards the front).  Used to state what
the scans compute. -/
def bestPair : List ℚ → ℚ × ℕ
  | [] => (INIT_DIST, 0)
  | [d] => (d, 0)
  | d :: e :: rest =>
    if (bestPair (e :: rest)).1 < d then
      ((bestPair (e :: rest)).1, (bestPair (e :: rest)).2 + 1)
    else (d, 0)

lemma gpuScanAux_eq_cpuScanAux (l : List ℚ) :
    ∀ dist best n, gpuScanAux l dist best n = cpuScanAux l dist best n := by
  induction l with
  | nil => intro dist best n; rfl
  | cons d rest ih =>
    intro dist best n
    simp only [gpuScanAux, cpuScanAux, gt_iff_lt]
    split_ifs <;> apply ih

lemma bestPair_le (l : List ℚ) : ∀ x ∈ l, (bestPair l).1 ≤ x := by
  induction l with
  | nil => simp
  | cons d rest ih =>
    cases rest with
    | nil => simp [bestPair]
    | cons e rest2 =>
      intro x hx
      rw [bestPair]
      rcases List.mem_cons.mp hx with h1 | h2
      · subst h1
        split_ifs with hlt
        · exact le_of_lt hlt
        · exact le_refl x
      · split_ifs with hlt
        · exact ih x h2
        · exact le_trans (not_lt.mp hlt) (ih x h2)

lemma bestPair_get (l : List ℚ) (h : l ≠ []) :
    (bestPair l).2 < l.length ∧ l[(bestPair l).2]? = some (bestPair l).1 := by
  induction l with
  | nil => exact absurd rfl h
  | cons d rest ih =>
    cases rest with
    | nil => simp [bestPair]
    | cons e rest2 =>
      rw [bestPair]
      split_ifs with hlt
      · have := ih (by simp)
        refine ⟨by simpa using this.1, ?_⟩
        simpa using this.2
      · simp

lemma bestPair_lt_before (l : List ℚ) :
    ∀ j x, j < (bestPair l).2 → l[j]? = some x → (bestPair l).1 < x := by
  induction l with
  | nil => simp [bestPair]
  | cons d rest ih =>
    cases rest with
    | nil => simp [bestPair]
    | cons e rest2 =>
      intro j x hj hx
      rw [bestPair] at hj ⊢
      split_ifs at hj ⊢ with hlt
      · have hj' : j < (bestPair (e :: rest2)).2 + 1 := hj
        cases j with
        | zero =>
          simp only [List.getElem?_cons_zero, Option.some_inj] at hx
          subst hx; exact hlt
        | succ k =>
          simp only [List.getElem?_cons_succ] at hx
          exact ih k x (by omega) hx
      · have hj' : j < 0 := hj
        omega

lemma cpuScanAux_nil (dist : ℚ) (best : ℤ) (n : ℕ) :
    cpuScanAux [] dist best n = (dist, best) := rfl

lemma cpuScanAux_cons (d : ℚ) (rest : List ℚ) (dist : ℚ) (best : ℤ) (n : ℕ) :
    cpuScanAux (d :: rest) dist best n =
      if d < dist ∨ n = 0 then cpuScanAux rest d (Int.ofNat n) (n + 1)
      else cpuScanAux rest dist best (n + 1) := rfl

lemma bestPair_singleton (d : ℚ) : bestPair [d] = (d, 0) := rfl

lemma bestPair_cons_cons (d e : ℚ) (rest : List ℚ) :
    bestPair (d :: e :: rest) =
      if (bestPair (e :: rest)).1 < d then
        ((bestPair (e :: rest)).1, (bestPair (e :: rest)).2 + 1)
      else (d, 0) := by
  rw [bestPair]

lemma cpuScanAux_spec (l : List ℚ) :
    ∀ (dist : ℚ) (best : ℤ) (n : ℕ), 1 ≤ n →
      cpuScanAux l dist best n =
        if l = [] then (dist, best)
        else if (bestPair l).1 < dist then
          ((bestPair l).1, Int.ofNat (n + (bestPair l).2))
        else (dist, best) := by
  induction l with
  | nil => intro dist best n _; rw [cpuScanAux_nil, if_pos rfl]
  | cons d rest ih =>
    intro dist best n hn
    have hn0 : ¬ n = 0 := by omega
    rw [cpuScanAux_cons, if_neg (List.cons_ne_nil d rest)]
    cases rest with
    | nil =>
      rw [bestPair_singleton]
      split_ifs with h1 h2 h2
      · rw [cpuScanAux_nil]; simp
      · exact absurd (h1.resolve_right hn0) h2
      · exact absurd (Or.inl h2) h1
      · rw [cpuScanAux_nil]
    | cons e rest2 =>
      rw [bestPair_cons_cons]
      rcases lt_or_le (bestPair (e :: rest2)).1 d with hmd | hmd
      · rw [if_pos hmd]
        split_ifs with h1 h2 h2
        · -- head improves on dist, and the overall minimum beats dist
          rw [ih d (Int.ofNat n) (n + 1) (by omega),
            if_neg (List.cons_ne_nil e rest2), if_pos hmd]
          have harith : n + 1 + (bestPair (e :: rest2)).2 =
              n + ((bestPair (e :: rest2)).2 + 1) := by omega
          rw [harith]
        · exact absurd (lt_trans hmd (h1.resolve_right hn0)) h2
        · rw [ih dist best (n + 1) (by omega),
            if_neg (List.cons_ne_nil e rest2), if_pos h2]
          have harith : n + 1 + (bestPair (e :: rest2)).2 =
              n + ((bestPair (e :: rest2)).2 + 1) := by omega
          rw [harith]
        · rw [ih dist best (n + 1) (by omega),
            if_neg (List.cons_ne_nil e rest2), if_neg h2]
      · rw [if_neg (not_lt.mpr hmd)]
        split_ifs with h1 h2 h2
        · -- the head is the overall minimum and improves on dist
          rw [ih d (Int.ofNat n) (n + 1) (by omega),
            if_neg (List.cons_ne_nil e rest2), if_neg (not_lt.mpr hmd)]
          simp
        · exact absurd (h1.resolve_right hn0) h2
        · exact absurd (Or.inl h2) h1
        · rw [ih dist best (n + 1) (by omega),
            if_neg (List.cons_ne_nil e rest2),
            if_neg (fun hc => h1 (Or.inl (lt_of_le_of_lt hmd hc)))]

lemma cpuScan_eq_bestPair (l : List ℚ) (h : l ≠ []) :
    cpuScan l = ((bestPair l).1, Int.ofNat (bestPair l).2) := by
  cases l with
  | nil => exact absurd rfl h
  | cons d rest =>
    rw [cpuScan, cpuScanAux_cons, if_pos (Or.inr rfl)]
    rw [cpuScanAux_spec rest d (Int.ofNat 0) 1 (le_refl 1)]
    cases rest with
    | nil => rw [if_pos rfl, bestPair_singleton]
    | cons e rest2 =>
      rw [if_neg (List.cons_ne_nil e rest2), bestPair_cons_cons]
      rcases lt_or_le (bestPair (e :: rest2)).1 d with hmd | hmd
      · rw [if_pos hmd, if_pos hmd]
        have harith : 1 + (bestPair (e :: rest2)).2 = (bestPair (e :: rest2)).2 + 1 := by
          omega
        rw [harith]
      · rw [if_neg (not_lt.mpr hmd), if_neg (not_lt.mpr hmd)]

lemma gpuScan_eq_cpuScan (l : List ℚ) : gpuScan l = cpuScan l :=
  gpuScanAux_eq_cpuScanAux l INIT_DIST (-1) 0

/-- C1: for every node position and every non-empty boundary sequence, both
the CPU scan (`dist_tmp < dist || n == 0`, lb_boundaries.cpp:252) and the GPU
scan (`dist > dist_tmp || n == 0`, lb_boundaries.cpp:140) agree and select as
owner the boundary with the numerically smallest reported distance; among
exactly equal distances the lowest-index (earliest-added) boundary wins,
because the scan only replaces the current best on a strict improvement. -/
theorem sweep_selects_nearest_lowest_index (env : BoundaryEnv) (bl : List ℕ)
    (pos : Vec3) (dists : List ℚ)
    (hd : dists = bl.map fun b => env.calc_dist b pos) (h : bl ≠ []) :
    gpuScan dists = cpuScan dists ∧
    ∃ i : ℕ, (cpuScan dists).2 = Int.ofNat i ∧ i < dists.length ∧
      dists[i]? = some (cpuScan dists).1 ∧
      (∀ x ∈ dists, (cpuScan dists).1 ≤ x) ∧
      (∀ j x, j < i → dists[j]? = some x → (cpuScan dists).1 < x) := by
  have hne : dists ≠ [] := by
    subst hd
    simpa using h
  refine ⟨gpuScan_eq_cpuScan dists, (bestPair dists).2, ?_, ?_, ?_, ?_, ?_⟩
  · rw [cpuScan_eq_bestPair dists hne]
  · exact (bestPair_get dists hne).1
  · rw [cpuScan_eq_bestPair dists hne]
    exact (bestPair_get dists hne).2
  · intro x hx
    rw [cpuScan_eq_bestPair dists hne]
    exact bestPair_le dists x hx
  · intro j x hj hx
    rw [cpuScan_eq_bestPair dists hne]
    exact bestPair_lt_before dists j x hj hx

/-- Witness for C1 at a concrete input: three boundaries at distances
`[2, 1, 1]`; the scan picks distance `1` at index `1`, the earlier of the two
tied boundaries. -/
theorem sweep_selects_nearest_lowest_index_witness :
    gpuScan [2, 1, 1] = cpuScan [2, 1, 1] ∧
    ∃ i : ℕ, (cpuScan [2, 1, 1]).2 = Int.ofNat i ∧ i < ([2, 1, 1] : List ℚ).length ∧
      ([2, 1, 1] : List ℚ)[i]? = some (cpuScan [2, 1, 1]).1 ∧
      (∀ x ∈ ([2, 1, 1] : List ℚ), (cpuScan [2, 1, 1]).1 ≤ x) ∧
      (∀ j x, j < i → ([2, 1, 1] : List ℚ)[j]? = some x → (cpuScan [2, 1, 1]).1 < x) :=
  sweep_selects_nearest_lowest_index
    ⟨fun b _ => if b = 0 then 2 else 1, fun _ => Vec3.zero, fun _ => 0⟩
    [0, 1, 2] Vec3.zero [2, 1, 1] (by decide) (by decide)

/-! ### CPU backend (lb_boundaries.cpp:216-273) -/

/-- The per-node fields the CPU classifier writes: `lbfields[i].boundary` and
`lbfields[i].slip_velocity`. -/
structure LBFields where
  boundary : ℕ
  slip_velocity : Vec3
deriving DecidableEq, Repr

/-- The CPU lattice data used by `lb_init_boundaries`: the rank-local grid
extent `lblattice.grid`, the rank's global offset
`node_pos * lblattice.grid` (lines 224-226), the cell size `agrid` and the
solver time step `tau` (`lb_lbfluid_get_tau() / lb_lbfluid_get_agrid()` at
line 265). -/
structure CpuLattice where
  grid_x : ℕ
  grid_y : ℕ
  grid_z : ℕ
  offset_x : ℤ
  offset_y : ℤ
  offset_z : ℤ
  agrid : ℚ
  tau : ℚ

/-- Halo-extended extent per axis: the sweep iterates `lblattice.grid[i] + 2`
(lines 235-237). -/
def haloX (p : CpuLattice) : ℕ := p.grid_x + 2

/-- Halo-extended extent along y. -/
def haloY (p : CpuLattice) : ℕ := p.grid_y + 2

/-- Halo-extended extent along z. -/
def haloZ (p : CpuLattice) : ℕ := p.grid_z + 2

/-- `lblattice.halo_grid_volume`: the number of halo-extended nodes (the
lattice construction, outside this file, sets it to the product of the
halo-extended extents, which is exactly the set of indices the sweep
writes). -/
def haloVolume (p : CpuLattice) : ℕ := haloX p * haloY p * haloZ p

/-- `Utils::get_linear_index(x, y, z, halo_grid)`: x fastest, then y, then z,
mirroring the explicit GPU linearisation
`x + dim_x * y + dim_x * dim_y * z` (line 164). -/
def get_linear_index (x y z hx hy : ℕ) : ℕ := x + hx * y + hx * hy * z

/-- Node physical position on the CPU backend (lines 238-241):
`(offset[i] + (coord - 0.5)) * lblattice.agrid`. -/
def cpuNodePos (p : CpuLattice) (x y z : ℕ) : Vec3 :=
  ⟨((p.offset_x : ℚ) + ((x : ℚ) - 1/2)) * p.agrid,
   ((p.offset_y : ℚ) + ((y : ℚ) - 1/2)) * p.agrid,
   ((p.offset_z : ℚ) + ((z : ℚ) - 1/2)) * p.agrid⟩

/-- One node of the CPU sweep body (lines 243-269): scan all boundaries, then
either mark the node owned (`the_boundary + 1`) and set its slip velocity to
the owner's velocity times `tau / agrid`, or write boundary flag `0` leaving
the slip velocity untouched. -/
def cpuClassifyNode (env : BoundaryEnv) (bl : List ℕ) (tau agrid : ℚ)
    (pos : Vec3) (node : LBFields) : LBFields :=
  let r := cpuScan (bl.map fun b => env.calc_dist b pos)
  if r.1 ≤ 0 ∧ 0 ≤ r.2 ∧ bl ≠ [] then
    { boundary := r.2.toNat + 1,
      slip_velocity := Vec3.smul (tau / agrid) (env.velocity (bl.getD r.2.toNat 0)) }
  else
    { node with boundary := 0 }

/-- Lines 228-230: `lbfields.at(n).boundary = 0` for every
`n < halo_grid_volume`.  Each iteration writes one distinct index, so the
loop is this pointwise update. -/
def zeroBoundaryFlags (vol : ℕ) (fields : ℕ → LBFields) : ℕ → LBFields :=
  fun i => if i < vol then { fields i with boundary := 0 } else fields i

/-- x-coordinate of the halo node with linear index `i`. -/
def decodeX (p : CpuLattice) (i : ℕ) : ℕ := i % haloX p

/-- y-coordinate of the halo node with linear index `i`. -/
def decodeY (p : CpuLattice) (i : ℕ) : ℕ := (i / haloX p) % haloY p

/-- z-coordinate of the halo node with linear index `i`. -/
def decodeZ (p : CpuLattice) (i : ℕ) : ℕ := i / (haloX p * haloY p)

/-- The CPU triple loop (lines 235-272).  `get_linear_index` maps the halo
box bijectively onto `[0, halo_grid_volume)`, so each linear index is written
exactly once, by the iteration at its own coordinates; the loop is therefore
this pointwise map.  (`the_boundary` is carried across nodes in the source;
see the remark at `cpuScan`.) -/
def cpuSweep (env : BoundaryEnv) (bl : List ℕ) (p : CpuLattice)
    (fields : ℕ → LBFields) : ℕ → LBFields :=
  fun i =>
    if i < haloVolume p then
      cpuClassifyNode env bl p.tau p.agrid
        (cpuNodePos p (decodeX p i) (decodeY p i) (decodeZ p i)) (fields i)
    else fields i

/-- The CPU branch of `lb_init_boundaries` (lines 216-273): zero all boundary
flags, return early when the local partition is degenerate
(`halo_grid_volume == 0`, line 232), otherwise run the sweep. -/
def lb_init_boundaries_cpu (env : BoundaryEnv) (bl : List ℕ) (p : CpuLattice)
    (fields : ℕ → LBFields) : ℕ → LBFields :=
  if haloVolume p = 0 then zeroBoundaryFlags (haloVolume p) fields
  else cpuSweep env bl p (zeroBoundaryFlags (haloVolume p) fields)

/-! ### GPU backend (lb_boundaries.cpp:70-215) -/

/-- The slice of `ek_parameters` and electrokinetics global state read by the
GPU branch. -/
structure EkParams where
  ek_initialized : Bool
  agrid : ℚ
  dim_x : ℕ
  dim_y : ℕ
  valency : ℕ → ℚ
  number_of_species : ℕ

/-- The GPU lattice parameters `lbpar_gpu.dim_{x,y,z}` and
`lbpar_gpu.agrid`. -/
structure GpuLattice where
  dim_x : ℕ
  dim_y : ℕ
  dim_z : ℕ
  agrid : ℚ

/-- Node physical position on the GPU backend (lines 120-122):
`agrid * (coords + 0.5)`, cell-centred. -/
def gpuNodePos (p : GpuLattice) (x y z : ℕ) : Vec3 :=
  ⟨p.agrid * ((x : ℚ) + 1/2), p.agrid * ((y : ℚ) + 1/2), p.agrid * ((z : ℚ) + 1/2)⟩

/-- The state threaded through the GPU inner boundary loop at one node:
`dist`, `boundary_number`, `node_charged`, `node_wallcharge`, and the
per-boundary mutable `net_charge`. -/
structure GpuScanState where
  dist : ℚ
  boundary_number : ℤ
  node_charged : Bool
  node_wallcharge : ℚ
  net_charge : ℕ → ℚ

/-- Lines 140-143 for one boundary: update the best distance and
`boundary_number` on `dist > dist_tmp || n == 0`. -/
def scanUpdate (d : ℚ) (n : ℕ) (st : GpuScanState) : GpuScanState :=
  if st.dist > d ∨ n = 0 then { st with dist := d, boundary_number := Int.ofNat n }
  else st

/-- Lines 144-157 for one boundary: when electrokinetics is initialised and
this boundary reports `dist_tmp <= 0` with nonzero charge density, set
`node_charged`, and accumulate `charge_density * agrid^3` into
`node_wallcharge` and into this boundary's `net_charge`. -/
def ekUpdate (env : BoundaryEnv) (ek : EkParams) (b : ℕ) (d : ℚ)
    (st : GpuScanState) : GpuScanState :=
  if ek.ek_initialized ∧ d ≤ 0 ∧ env.charge_density b ≠ 0 then
    { st with
      node_charged := true
      node_wallcharge := st.node_wallcharge +
        env.charge_density b * ek.agrid * ek.agrid * ek.agrid
      net_charge := fun q =>
        if q = b then
          st.net_charge q + env.charge_density b * ek.agrid * ek.agrid * ek.agrid
        else st.net_charge q }
  else st

/-- The GPU inner boundary loop (lines 135-158): per boundary, the distance
update (lines 140-143) followed by the electrokinetic accumulation
(lines 144-157). -/
def gpuBoundaryLoop (env : BoundaryEnv) (ek : EkParams) (pos : Vec3) :
    List ℕ → ℕ → GpuScanState → GpuScanState
  | [], _, st => st
  | b :: rest, n, st =>
    gpuBoundaryLoop env ek pos rest (n + 1)
      (ekUpdate env ek b (env.calc_dist b pos)
        (scanUpdate (env.calc_dist b pos) n st))

/-- The cross-node GPU sweep state: the compacted boundary-node and
boundary-index lists (`host_boundary_node_list` / `host_boundary_index_list`,
kept as lists since each resize-and-write appends one entry), the carried
`boundary_number`, the per-boundary `net_charge`, and the host wall-charge
buffer `host_wallcharge_species_density`. -/
structure GpuState where
  boundary_node_list : List ℕ
  boundary_index_list : List ℕ
  boundary_number : ℤ
  net_charge : ℕ → ℚ
  wallcharge : ℕ → ℚ

/-- One node of the GPU sweep (body of the triple loop, lines 119-185):
reset `dist` to `1e99` and, under `ek_initialized`, the per-node charge
accumulators (lines 124-132); run the boundary loop; if
`dist <= 0 && boundary_number >= 0 && !lbboundaries.empty()` append the
node's linear index and `boundary_number + 1` to the compacted lists
(lines 159-168); finally, when a wall-charge species exists and the node is
charged, write `node_wallcharge / valency[wallcharge_species]` into the
node's wall-charge buffer entry (lines 172-184). -/
def gpuNodeStep (env : BoundaryEnv) (ek : EkParams) (p : GpuLattice)
    (ws : ℤ) (bl : List ℕ) (x y z : ℕ) (st : GpuState) : GpuState :=
  let pos := gpuNodePos p x y z
  let s := gpuBoundaryLoop env ek pos bl 0
    { dist := INIT_DIST, boundary_number := st.boundary_number,
      node_charged := false, node_wallcharge := 0, net_charge := st.net_charge }
  let st1 :=
    if s.dist ≤ 0 ∧ 0 ≤ s.boundary_number ∧ bl ≠ [] then
      { st with
        boundary_node_list :=
          st.boundary_node_list ++ [x + p.dim_x * y + p.dim_x * p.dim_y * z]
        boundary_index_list :=
          st.boundary_index_list ++ [s.boundary_number.toNat + 1]
        boundary_number := s.boundary_number
        net_charge := s.net_charge }
    else { st with boundary_number := s.boundary_number, net_charge := s.net_charge }
  if ek.ek_initialized ∧ ws ≠ -1 ∧ s.node_charged then
    { st1 with
      wallcharge := fun i =>
        if i = ek.dim_y * ek.dim_x * z + ek.dim_x * y + x then
          s.node_wallcharge / ek.valency ws.toNat
        else st1.wallcharge i }
  else st1

/-- The GPU sweep order (lines 117-119): z outermost, then y, then x. -/
def gpuNodeList (p : GpuLattice) : List (ℕ × ℕ × ℕ) :=
  (List.range p.dim_z).flatMap fun z =>
    (List.range p.dim_y).flatMap fun y =>
      (List.range p.dim_x).map fun x => (x, y, z)

/-- The full GPU sweep over all global nodes. -/
def gpuSweep (env : BoundaryEnv) (ek : EkParams) (p : GpuLattice) (ws : ℤ)
    (bl : List ℕ) (st : GpuState) : GpuState :=
  (gpuNodeList p).foldl (fun st c => gpuNodeStep env ek p ws bl c.1 c.2.1 c.2.2 st) st

/-- Lines 89-91: before the sweep every listed boundary's net charge is reset
to zero. -/
def resetNetCharge (bl : List ℕ) (q : ℕ → ℚ) : ℕ → ℚ :=
  fun b => if b ∈ bl then 0 else q b

/-- Lines 95-100: `charged_boundaries` is set when some boundary has nonzero
charge density. -/
def chargedBoundaries (env : BoundaryEnv) (bl : List ℕ) : Bool :=
  bl.any fun b => env.charge_density b ≠ 0

/-- Lines 102-106: `wallcharge_species` is the first species index with
nonzero valency, and keeps its initialiser `-1` when none exists. -/
def wallchargeSpecies (ek : EkParams) : ℤ :=
  match (List.range ek.number_of_species).find? (fun n => ek.valency n ≠ 0) with
  | some n => Int.ofNat n
  | none => -1

/-- Lines 111-114: one `runtimeErrorMsg()` is emitted when electrokinetics is
initialised, some boundary is charged, and no wall-charge species exists;
otherwise none. -/
def ekErrorCount (env : BoundaryEnv) (ek : EkParams) (bl : List ℕ) : ℕ :=
  if ek.ek_initialized ∧ wallchargeSpecies ek = -1 ∧ chargedBoundaries env bl then 1
  else 0

/-- Result of the GPU branch: the final sweep state plus the number of
runtime-error messages emitted. -/
structure GpuPassResult where
  state : GpuState
  error_count : ℕ

/-- The GPU branch of `lb_init_boundaries` (lines 70-215): reset net charges
(lines 89-91); under `ek_initialized` gather the current wall-charge species
density into the host buffer (`ek_gather_wallcharge_species_density`, an
external device read modelled by the `gathered` argument) and compute
`wallcharge_species` and the error count; then sweep every global node.
When electrokinetics is not initialised the host buffer is never resized or
written, so its contents are irrelevant; we model it as the zero function. -/
def lb_init_boundaries_gpu (env : BoundaryEnv) (ek : EkParams) (p : GpuLattice)
    (bl : List ℕ) (net_charge0 : ℕ → ℚ) (gathered : ℕ → ℚ) : GpuPassResult :=
  let ws := if ek.ek_initialized then wallchargeSpecies ek else -1
  let st0 : GpuState :=
    { boundary_node_list := [], boundary_index_list := [],
      boundary_number := -1, net_charge := resetNetCharge bl net_charge0,
      wallcharge := if ek.ek_initialized then gathered else fun _ => 0 }
  { state := gpuSweep env ek p ws bl st0,
    error_count := ekErrorCount env ek bl }

/-! ### Characterisations of the GPU inner loop -/

lemma gpuScanAux_cons (d : ℚ) (rest : List ℚ) (dist : ℚ) (best : ℤ) (n : ℕ) :
    gpuScanAux (d :: rest) dist best n =
      if dist > d ∨ n = 0 then gpuScanAux rest d (Int.ofNat n) (n + 1)
      else gpuScanAux rest dist best (n + 1) := rfl

/-- The electrokinetic cell volume factor `agrid * agrid * agrid` used by the
wall-charge accumulation (lines 148-154). -/
def cellVolume (ek : EkParams) : ℚ := ek.agrid * ek.agrid * ek.agrid

lemma scanUpdate_dist (d : ℚ) (n : ℕ) (st : GpuScanState) :
    (scanUpdate d n st).dist = if st.dist > d ∨ n = 0 then d else st.dist := by
  rw [scanUpdate]; split_ifs <;> rfl

lemma scanUpdate_bnum (d : ℚ) (n : ℕ) (st : GpuScanState) :
    (scanUpdate d n st).boundary_number =
      if st.dist > d ∨ n = 0 then Int.ofNat n else st.boundary_number := by
  rw [scanUpdate]; split_ifs <;> rfl

lemma scanUpdate_node_charged (d : ℚ) (n : ℕ) (st : GpuScanState) :
    (scanUpdate d n st).node_charged = st.node_charged := by
  rw [scanUpdate]; split_ifs <;> rfl

lemma scanUpdate_node_wallcharge (d : ℚ) (n : ℕ) (st : GpuScanState) :
    (scanUpdate d n st).node_wallcharge = st.node_wallcharge := by
  rw [scanUpdate]; split_ifs <;> rfl

lemma scanUpdate_net_charge (d : ℚ) (n : ℕ) (st : GpuScanState) :
    (scanUpdate d n st).net_charge = st.net_charge := by
  rw [scanUpdate]; split_ifs <;> rfl

lemma ekUpdate_dist (env : BoundaryEnv) (ek : EkParams) (b : ℕ) (d : ℚ)
    (st : GpuScanState) : (ekUpdate env ek b d st).dist = st.dist := by
  rw [ekUpdate]; split_ifs <;> rfl

lemma ekUpdate_bnum (env : BoundaryEnv) (ek : EkParams) (b : ℕ) (d : ℚ)
    (st : GpuScanState) :
    (ekUpdate env ek b d st).boundary_number = st.boundary_number := by
  rw [ekUpdate]; split_ifs <;> rfl

lemma ekUpdate_node_charged (env : BoundaryEnv) (ek : EkParams) (b : ℕ) (d : ℚ)
    (st : GpuScanState) :
    (ekUpdate env ek b d st).node_charged =
      (st.node_charged ||
        decide (ek.ek_initialized ∧ d ≤ 0 ∧ env.charge_density b ≠ 0)) := by
  rw [ekUpdate]
  split_ifs with he
  · simp [he]
  · simp [he]

lemma ekUpdate_node_wallcharge (env : BoundaryEnv) (ek : EkParams) (b : ℕ)
    (d : ℚ) (st : GpuScanState) :
    (ekUpdate env ek b d st).node_wallcharge =
      st.node_wallcharge +
        (if ek.ek_initialized ∧ d ≤ 0 ∧ env.charge_density b ≠ 0 then
          env.charge_density b * cellVolume ek else 0) := by
  rw [ekUpdate]
  split_ifs with he
  · show st.node_wallcharge + _ = _
    rw [cellVolume]; ring
  · rw [add_zero]

lemma ekUpdate_net_charge (env : BoundaryEnv) (ek : EkParams) (b : ℕ) (d : ℚ)
    (st : GpuScanState) (q : ℕ) :
    (ekUpdate env ek b d st).net_charge q =
      st.net_charge q +
        (if (ek.ek_initialized ∧ d ≤ 0 ∧ env.charge_density b ≠ 0) ∧ q = b then
          env.charge_density b * cellVolume ek else 0) := by
  rw [ekUpdate]
  split_ifs with he hq hq
  · show (if q = b then _ else _) = _
    rw [if_pos hq.2, cellVolume]; ring
  · show (if q = b then _ else _) = _
    rw [if_neg (fun h => hq ⟨he, h⟩), add_zero]
  · exact absurd hq.1 he
  · rw [add_zero]

lemma gpuBoundaryLoop_nil (env : BoundaryEnv) (ek : EkParams) (pos : Vec3)
    (n : ℕ) (st : GpuScanState) : gpuBoundaryLoop env ek pos [] n st = st := rfl

lemma gpuBoundaryLoop_cons (env : BoundaryEnv) (ek : EkParams) (pos : Vec3)
    (b : ℕ) (rest : List ℕ) (n : ℕ) (st : GpuScanState) :
    gpuBoundaryLoop env ek pos (b :: rest) n st =
      gpuBoundaryLoop env ek pos rest (n + 1)
        (ekUpdate env ek b (env.calc_dist b pos)
          (scanUpdate (env.calc_dist b pos) n st)) := rfl

lemma gpuBoundaryLoop_dist (env : BoundaryEnv) (ek : EkParams) (pos : Vec3) :
    ∀ (bl : List ℕ) (n : ℕ) (st : GpuScanState),
      (gpuBoundaryLoop env ek pos bl n st).dist =
        (gpuScanAux (bl.map fun b => env.calc_dist b pos)
          st.dist st.boundary_number n).1 := by
  intro bl
  induction bl with
  | nil => intro n st; rfl
  | cons b rest ih =>
    intro n st
    rw [List.map_cons, gpuBoundaryLoop_cons, ih, gpuScanAux_cons,
      ekUpdate_dist, ekUpdate_bnum, scanUpdate_dist, scanUpdate_bnum]
    split_ifs <;> rfl

lemma gpuBoundaryLoop_bnum (env : BoundaryEnv) (ek : EkParams) (pos : Vec3) :
    ∀ (bl : List ℕ) (n : ℕ) (st : GpuScanState),
      (gpuBoundaryLoop env ek pos bl n st).boundary_number =
        (gpuScanAux (bl.map fun b => env.calc_dist b pos)
          st.dist st.boundary_number n).2 := by
  intro bl
  induction bl with
  | nil => intro n st; rfl
  | cons b rest ih =>
    intro n st
    rw [List.map_cons, gpuBoundaryLoop_cons, ih, gpuScanAux_cons,
      ekUpdate_dist, ekUpdate_bnum, scanUpdate_dist, scanUpdate_bnum]
    split_ifs <;> rfl

/-- Total charge the inner loop at one node adds to boundary `q`'s net
charge: one `charge_density * agrid^3` per occurrence of `q` in the sequence,
whenever electrokinetics is initialised and `q` reports distance ≤ 0 with
nonzero charge density. -/
def loopAccum (env : BoundaryEnv) (ek : EkParams) (pos : Vec3) (bl : List ℕ)
    (q : ℕ) : ℚ :=
  if ek.ek_initialized ∧ env.calc_dist q pos ≤ 0 ∧ env.charge_density q ≠ 0 then
    (bl.count q : ℚ) * (env.charge_density q * cellVolume ek)
  else 0

lemma gpuBoundaryLoop_net_charge (env : BoundaryEnv) (ek : EkParams) (pos : Vec3) :
    ∀ (bl : List ℕ) (n : ℕ) (st : GpuScanState) (q : ℕ),
      (gpuBoundaryLoop env ek pos bl n st).net_charge q =
        st.net_charge q + loopAccum env ek pos bl q := by
  intro bl
  induction bl with
  | nil =>
    intro n st q
    rw [gpuBoundaryLoop_nil, loopAccum]
    split_ifs <;> simp
  | cons b rest ih =>
    intro n st q
    rw [gpuBoundaryLoop_cons, ih, ekUpdate_net_charge, scanUpdate_net_charge]
    by_cases hq : q = b
    · subst hq
      rw [loopAccum, loopAccum, List.count_cons_self]
      by_cases hC : ek.ek_initialized ∧ env.calc_dist q pos ≤ 0 ∧
          env.charge_density q ≠ 0
      · rw [if_pos hC, if_pos hC, if_pos ⟨hC, rfl⟩]
        push_cast
        ring
      · rw [if_neg hC, if_neg hC, if_neg (fun hc => hC hc.1)]
        ring
    · rw [if_neg (fun hc => hq hc.2), add_zero]
      congr 1
      rw [loopAccum, loopAccum, List.count_cons_of_ne hq]

/-- Sum of wall-charge contributions at one node: one
`charge_density * agrid^3` per boundary occurrence with distance ≤ 0 and
nonzero charge density, when electrokinetics is initialised. -/
def nodeChargeSum (env : BoundaryEnv) (ek : EkParams) (pos : Vec3)
    (bl : List ℕ) : ℚ :=
  if ek.ek_initialized then
    ((bl.filter fun b =>
        decide (env.calc_dist b pos ≤ 0 ∧ env.charge_density b ≠ 0)).map
      fun b => env.charge_density b * cellVolume ek).sum
  else 0

lemma gpuBoundaryLoop_node_wallcharge (env : BoundaryEnv) (ek : EkParams)
    (pos : Vec3) :
    ∀ (bl : List ℕ) (n : ℕ) (st : GpuScanState),
      (gpuBoundaryLoop env ek pos bl n st).node_wallcharge =
        st.node_wallcharge + nodeChargeSum env ek pos bl := by
  intro bl
  induction bl with
  | nil =>
    intro n st
    rw [gpuBoundaryLoop_nil, nodeChargeSum]
    split_ifs <;> simp
  | cons b rest ih =>
    intro n st
    rw [gpuBoundaryLoop_cons, ih, ekUpdate_node_wallcharge,
      scanUpdate_node_wallcharge]
    cases hek : ek.ek_initialized with
    | false => simp [nodeChargeSum, hek]
    | true =>
      rw [nodeChargeSum, nodeChargeSum, if_pos hek, if_pos hek, List.filter_cons]
      by_cases hb : env.calc_dist b pos ≤ 0 ∧ env.charge_density b ≠ 0
      · rw [if_pos ⟨rfl, hb.1, hb.2⟩, if_pos (decide_eq_true hb),
          List.map_cons, List.sum_cons]
        ring
      · rw [if_neg (fun hc => hb ⟨hc.2.1, hc.2.2⟩),
          if_neg (by simp [decide_eq_false hb]), add_zero]

lemma gpuBoundaryLoop_node_charged (env : BoundaryEnv) (ek : EkParams)
    (pos : Vec3) :
    ∀ (bl : List ℕ) (n : ℕ) (st : GpuScanState),
      (gpuBoundaryLoop env ek pos bl n st).node_charged =
        (st.node_charged || (ek.ek_initialized &&
          bl.any fun b =>
            decide (env.calc_dist b pos ≤ 0 ∧ env.charge_density b ≠ 0))) := by
  intro bl
  induction bl with
  | nil =>
    intro n st
    rw [gpuBoundaryLoop_nil]
    simp
  | cons b rest ih =>
    intro n st
    rw [gpuBoundaryLoop_cons, ih, ekUpdate_node_charged,
      scanUpdate_node_charged, List.any_cons]
    cases hek : ek.ek_initialized with
    | false => simp [hek]
    | true =>
      by_cases hb : env.calc_dist b pos ≤ 0 ∧ env.charge_density b ≠ 0
      · simp [hek, hb.1, hb.2]
      · rw [decide_eq_false (fun hc => hb ⟨hc.2.1, hc.2.2⟩),
          decide_eq_false hb]
        simp

/-- With a non-empty distance list, the `n == 0` branch makes the first
boundary establish the running best unconditionally, so the scan result is
independent of the initial `dist` and best-index values. -/
lemma cpuScanAux_zero_indep (l : List ℚ) (h : l ≠ []) (dist0 : ℚ) (best : ℤ) :
    cpuScanAux l dist0 best 0 = cpuScan l := by
  cases l with
  | nil => exact absurd rfl h
  | cons d rest =>
    rw [cpuScanAux_cons, if_pos (Or.inr rfl), cpuScan, cpuScanAux_cons,
      if_pos (Or.inr rfl)]

lemma gpuScanAux_zero_indep (l : List ℚ) (h : l ≠ []) (dist0 : ℚ) (best : ℤ) :
    gpuScanAux l dist0 best 0 = cpuScan l := by
  rw [gpuScanAux_eq_cpuScanAux]
  exact cpuScanAux_zero_indep l h dist0 best

lemma gpuNodeStep_node_list (env : BoundaryEnv) (ek : EkParams)
    (p : GpuLattice) (ws : ℤ) (bl : List ℕ) (x y z : ℕ) (st : GpuState) :
    (gpuNodeStep env ek p ws bl x y z st).boundary_node_list =
      if (gpuBoundaryLoop env ek (gpuNodePos p x y z) bl 0
            ⟨INIT_DIST, st.boundary_number, false, 0, st.net_charge⟩).dist ≤ 0 ∧
          0 ≤ (gpuBoundaryLoop env ek (gpuNodePos p x y z) bl 0
            ⟨INIT_DIST, st.boundary_number, false, 0, st.net_charge⟩).boundary_number ∧
          bl ≠ [] then
        st.boundary_node_list ++ [x + p.dim_x * y + p.dim_x * p.dim_y * z]
      else st.boundary_node_list := by
  simp only [gpuNodeStep]
  split_ifs <;> rfl

lemma gpuNodeStep_index_list (env : BoundaryEnv) (ek : EkParams)
    (p : GpuLattice) (ws : ℤ) (bl : List ℕ) (x y z : ℕ) (st : GpuState) :
    (gpuNodeStep env ek p ws bl x y z st).boundary_index_list =
      if (gpuBoundaryLoop env ek (gpuNodePos p x y z) bl 0
            ⟨INIT_DIST, st.boundary_number, false, 0, st.net_charge⟩).dist ≤ 0 ∧
          0 ≤ (gpuBoundaryLoop env ek (gpuNodePos p x y z) bl 0
            ⟨INIT_DIST, st.boundary_number, false, 0, st.net_charge⟩).boundary_number ∧
          bl ≠ [] then
        st.boundary_index_list ++
          [(gpuBoundaryLoop env ek (gpuNodePos p x y z) bl 0
              ⟨INIT_DIST, st.boundary_number, false, 0,
                st.net_charge⟩).boundary_number.toNat + 1]
      else st.boundary_index_list := by
  simp only [gpuNodeStep]
  split_ifs <;> rfl

lemma gpuNodeStep_bnum (env : BoundaryEnv) (ek : EkParams) (p : GpuLattice)
    (ws : ℤ) (bl : List ℕ) (x y z : ℕ) (st : GpuState) :
    (gpuNodeStep env ek p ws bl x y z st).boundary_number =
      (gpuBoundaryLoop env ek (gpuNodePos p x y z) bl 0
        ⟨INIT_DIST, st.boundary_number, false, 0,
          st.net_charge⟩).boundary_number := by
  simp only [gpuNodeStep]
  split_ifs <;> rfl

lemma gpuNodeStep_net_charge (env : BoundaryEnv) (ek : EkParams)
    (p : GpuLattice) (ws : ℤ) (bl : List ℕ) (x y z : ℕ) (st : GpuState)
    (q : ℕ) :
    (gpuNodeStep env ek p ws bl x y z st).net_charge q =
      st.net_charge q + loopAccum env ek (gpuNodePos p x y z) bl q := by
  have h := gpuBoundaryLoop_net_charge env ek (gpuNodePos p x y z) bl 0
    ⟨INIT_DIST, st.boundary_number, false, 0, st.net_charge⟩ q
  simp only [gpuNodeStep]
  split_ifs <;> exact h

lemma gpuNodeStep_wallcharge (env : BoundaryEnv) (ek : EkParams)
    (p : GpuLattice) (ws : ℤ) (bl : List ℕ) (x y z : ℕ) (st : GpuState) :
    (gpuNodeStep env ek p ws bl x y z st).wallcharge =
      if ek.ek_initialized ∧ ws ≠ -1 ∧
          (gpuBoundaryLoop env ek (gpuNodePos p x y z) bl 0
            ⟨INIT_DIST, st.boundary_number, false, 0,
              st.net_charge⟩).node_charged = true then
        fun i =>
          if i = ek.dim_y * ek.dim_x * z + ek.dim_x * y + x then
            (gpuBoundaryLoop env ek (gpuNodePos p x y z) bl 0
              ⟨INIT_DIST, st.boundary_number, false, 0,
                st.net_charge⟩).node_wallcharge / ek.valency ws.toNat
          else st.wallcharge i
      else st.wallcharge := by
  simp only [gpuNodeStep]
  split_ifs <;> rfl

/-- Total charge the full sweep adds to boundary `q`: the sum of the per-node
accumulations. -/
def sweepAccum (env : BoundaryEnv) (ek : EkParams) (p : GpuLattice)
    (bl : List ℕ) (q : ℕ) : ℚ :=
  ((gpuNodeList p).map fun c =>
    loopAccum env ek (gpuNodePos p c.1 c.2.1 c.2.2) bl q).sum

lemma foldl_nodeStep_net_charge (env : BoundaryEnv) (ek : EkParams)
    (p : GpuLattice) (ws : ℤ) (bl : List ℕ) (q : ℕ) :
    ∀ (cs : List (ℕ × ℕ × ℕ)) (st : GpuState),
      (cs.foldl (fun st c => gpuNodeStep env ek p ws bl c.1 c.2.1 c.2.2 st)
          st).net_charge q =
        st.net_charge q +
          (cs.map fun c => loopAccum env ek (gpuNodePos p c.1 c.2.1 c.2.2) bl q).sum := by
  intro cs
  induction cs with
  | nil => intro st; simp
  | cons c rest ih =>
    intro st
    rw [List.foldl_cons, ih, List.map_cons, List.sum_cons,
      gpuNodeStep_net_charge]
    ring

lemma gpuSweep_net_charge (env : BoundaryEnv) (ek : EkParams) (p : GpuLattice)
    (ws : ℤ) (bl : List ℕ) (st : GpuState) (q : ℕ) :
    (gpuSweep env ek p ws bl st).net_charge q =
      st.net_charge q + sweepAccum env ek p bl q := by
  rw [gpuSweep, sweepAccum]
  exact foldl_nodeStep_net_charge env ek p ws bl q (gpuNodeList p) st

lemma loopAccum_not_mem (env : BoundaryEnv) (ek : EkParams) (pos : Vec3)
    (bl : List ℕ) (q : ℕ) (h : q ∉ bl) : loopAccum env ek pos bl q = 0 := by
  rw [loopAccum]
  split_ifs with hC
  · rw [List.count_eq_zero.mpr h]
    simp
  · rfl

lemma sweepAccum_not_mem (env : BoundaryEnv) (ek : EkParams) (p : GpuLattice)
    (bl : List ℕ) (q : ℕ) (h : q ∉ bl) : sweepAccum env ek p bl q = 0 := by
  rw [sweepAccum]
  rw [List.sum_eq_zero]
  intro x hx
  rcases List.mem_map.mp hx with ⟨c, _, rfl⟩
  exact loopAccum_not_mem env ek _ bl q h

lemma gpuNodeStep_congr (env : BoundaryEnv) (ek : EkParams) (p : GpuLattice)
    (ws : ℤ) (bl : List ℕ) (x y z : ℕ) (st0 st1 : GpuState)
    (h1 : st0.boundary_node_list = st1.boundary_node_list)
    (h2 : st0.boundary_index_list = st1.boundary_index_list)
    (h3 : st0.boundary_number = st1.boundary_number)
    (h4 : st0.wallcharge = st1.wallcharge) :
    (gpuNodeStep env ek p ws bl x y z st0).boundary_node_list =
      (gpuNodeStep env ek p ws bl x y z st1).boundary_node_list ∧
    (gpuNodeStep env ek p ws bl x y z st0).boundary_index_list =
      (gpuNodeStep env ek p ws bl x y z st1).boundary_index_list ∧
    (gpuNodeStep env ek p ws bl x y z st0).boundary_number =
      (gpuNodeStep env ek p ws bl x y z st1).boundary_number ∧
    (gpuNodeStep env ek p ws bl x y z st0).wallcharge =
      (gpuNodeStep env ek p ws bl x y z st1).wallcharge := by
  have hd : (gpuBoundaryLoop env ek (gpuNodePos p x y z) bl 0
        ⟨INIT_DIST, st0.boundary_number, false, 0, st0.net_charge⟩).dist =
      (gpuBoundaryLoop env ek (gpuNodePos p x y z) bl 0
        ⟨INIT_DIST, st1.boundary_number, false, 0, st1.net_charge⟩).dist := by
    rw [gpuBoundaryLoop_dist, gpuBoundaryLoop_dist, h3]
  have hb : (gpuBoundaryLoop env ek (gpuNodePos p x y z) bl 0
        ⟨INIT_DIST, st0.boundary_number, false, 0, st0.net_charge⟩).boundary_number =
      (gpuBoundaryLoop env ek (gpuNodePos p x y z) bl 0
        ⟨INIT_DIST, st1.boundary_number, false, 0, st1.net_charge⟩).boundary_number := by
    rw [gpuBoundaryLoop_bnum, gpuBoundaryLoop_bnum, h3]
  have hch : (gpuBoundaryLoop env ek (gpuNodePos p x y z) bl 0
        ⟨INIT_DIST, st0.boundary_number, false, 0, st0.net_charge⟩).node_charged =
      (gpuBoundaryLoop env ek (gpuNodePos p x y z) bl 0
        ⟨INIT_DIST, st1.boundary_number, false, 0, st1.net_charge⟩).node_charged := by
    rw [gpuBoundaryLoop_node_charged, gpuBoundaryLoop_node_charged]
  have hwc : (gpuBoundaryLoop env ek (gpuNodePos p x y z) bl 0
        ⟨INIT_DIST, st0.boundary_number, false, 0, st0.net_charge⟩).node_wallcharge =
      (gpuBoundaryLoop env ek (gpuNodePos p x y z) bl 0
        ⟨INIT_DIST, st1.boundary_number, false, 0, st1.net_charge⟩).node_wallcharge := by
    rw [gpuBoundaryLoop_node_wallcharge, gpuBoundaryLoop_node_wallcharge]
  refine ⟨?_, ?_, ?_, ?_⟩
  · rw [gpuNodeStep_node_list, gpuNodeStep_node_list, hd, hb, h1]
  · rw [gpuNodeStep_index_list, gpuNodeStep_index_list, hd, hb, h2]
  · rw [gpuNodeStep_bnum, gpuNodeStep_bnum, hb]
  · rw [gpuNodeStep_wallcharge, gpuNodeStep_wallcharge, hch, hwc, h4]

lemma foldl_nodeStep_congr (env : BoundaryEnv) (ek : EkParams)
    (p : GpuLattice) (ws : ℤ) (bl : List ℕ) :
    ∀ (cs : List (ℕ × ℕ × ℕ)) (st0 st1 : GpuState),
      st0.boundary_node_list = st1.boundary_node_list →
      st0.boundary_index_list = st1.boundary_index_list →
      st0.boundary_number = st1.boundary_number →
      st0.wallcharge = st1.wallcharge →
      (cs.foldl (fun st c => gpuNodeStep env ek p ws bl c.1 c.2.1 c.2.2 st)
          st0).boundary_node_list =
        (cs.foldl (fun st c => gpuNodeStep env ek p ws bl c.1 c.2.1 c.2.2 st)
          st1).boundary_node_list ∧
      (cs.foldl (fun st c => gpuNodeStep env ek p ws bl c.1 c.2.1 c.2.2 st)
          st0).boundary_index_list =
        (cs.foldl (fun st c => gpuNodeStep env ek p ws bl c.1 c.2.1 c.2.2 st)
          st1).boundary_index_list ∧
      (cs.foldl (fun st c => gpuNodeStep env ek p ws bl c.1 c.2.1 c.2.2 st)
          st0).boundary_number =
        (cs.foldl (fun st c => gpuNodeStep env ek p ws bl c.1 c.2.1 c.2.2 st)
          st1).boundary_number ∧
      (cs.foldl (fun st c => gpuNodeStep env ek p ws bl c.1 c.2.1 c.2.2 st)
          st0).wallcharge =
        (cs.foldl (fun st c => gpuNodeStep env ek p ws bl c.1 c.2.1 c.2.2 st)
          st1).wallcharge := by
  intro cs
  induction cs with
  | nil => intro st0 st1 h1 h2 h3 h4; exact ⟨h1, h2, h3, h4⟩
  | cons c rest ih =>
    intro st0 st1 h1 h2 h3 h4
    rw [List.foldl_cons, List.foldl_cons]
    obtain ⟨g1, g2, g3, g4⟩ :=
      gpuNodeStep_congr env ek p ws bl c.1 c.2.1 c.2.2 st0 st1 h1 h2 h3 h4
    exact ih _ _ g1 g2 g3 g4

lemma gpuSweep_congr (env : BoundaryEnv) (ek : EkParams) (p : GpuLattice)
    (ws : ℤ) (bl : List ℕ) (st0 st1 : GpuState)
    (h1 : st0.boundary_node_list = st1.boundary_node_list)
    (h2 : st0.boundary_index_list = st1.boundary_index_list)
    (h3 : st0.boundary_number = st1.boundary_number)
    (h4 : st0.wallcharge = st1.wallcharge) :
    (gpuSweep env ek p ws bl st0).boundary_node_list =
      (gpuSweep env ek p ws bl st1).boundary_node_list ∧
    (gpuSweep env ek p ws bl st0).boundary_index_list =
      (gpuSweep env ek p ws bl st1).boundary_index_list ∧
    (gpuSweep env ek p ws bl st0).boundary_number =
      (gpuSweep env ek p ws bl st1).boundary_number ∧
    (gpuSweep env ek p ws bl st0).wallcharge =
      (gpuSweep env ek p ws bl st1).wallcharge := by
  rw [gpuSweep, gpuSweep]
  exact foldl_nodeStep_congr env ek p ws bl (gpuNodeList p) st0 st1 h1 h2 h3 h4

/-! ### Claim theorems -/

lemma cpuScan_snd_nonneg (l : List ℚ) (h : l ≠ []) : 0 ≤ (cpuScan l).2 := by
  rw [cpuScan_eq_bestPair l h]
  exact Int.ofNat_nonneg _

lemma map_dist_ne_nil (env : BoundaryEnv) (pos : Vec3) (bl : List ℕ)
    (h : bl ≠ []) : bl.map (fun b => env.calc_dist b pos) ≠ [] := by
  intro hm
  exact h (by simpa using hm)

lemma gpu_owned_cond_iff (env : BoundaryEnv) (ek : EkParams) (pos : Vec3)
    (bl : List ℕ) (bnum0 : ℤ) (q0 : ℕ → ℚ) :
    ((gpuBoundaryLoop env ek pos bl 0
        ⟨INIT_DIST, bnum0, false, 0, q0⟩).dist ≤ 0 ∧
      0 ≤ (gpuBoundaryLoop env ek pos bl 0
        ⟨INIT_DIST, bnum0, false, 0, q0⟩).boundary_number ∧
      bl ≠ []) ↔
    ((cpuScan (bl.map fun b => env.calc_dist b pos)).1 ≤ 0 ∧ bl ≠ []) := by
  cases bl with
  | nil => simp
  | cons b rest =>
    have hne : (b :: rest).map (fun b => env.calc_dist b pos) ≠ [] := by simp
    rw [gpuBoundaryLoop_dist, gpuBoundaryLoop_bnum,
      gpuScanAux_zero_indep _ hne]
    constructor
    · intro h
      exact ⟨h.1, h.2.2⟩
    · intro h
      exact ⟨h.1, cpuScan_snd_nonneg _ hne, h.2⟩

lemma gpu_loop_bnum_of_ne_nil (env : BoundaryEnv) (ek : EkParams) (pos : Vec3)
    (bl : List ℕ) (bnum0 : ℤ) (q0 : ℕ → ℚ) (h : bl ≠ []) :
    (gpuBoundaryLoop env ek pos bl 0
        ⟨INIT_DIST, bnum0, false, 0, q0⟩).boundary_number =
      (cpuScan (bl.map fun b => env.calc_dist b pos)).2 := by
  rw [gpuBoundaryLoop_bnum, gpuScanAux_zero_indep _ (map_dist_ne_nil env pos bl h)]

/-- C2: after the sweep of all boundaries, a node is classified as
boundary-owned — CPU: `node.boundary` is `the_boundary + 1`; GPU: the node's
linear index and `boundary_number + 1` are appended to the compacted lists —
if and only if the best distance found is ≤ 0 and the boundary sequence is
non-empty; otherwise the CPU flag is 0 and the GPU lists are unchanged. -/
theorem node_classification_iff (env : BoundaryEnv) (bl : List ℕ)
    (ek : EkParams) (p : GpuLattice) (ws : ℤ) (tau agrid : ℚ)
    (cpos : Vec3) (node : LBFields) (x y z : ℕ) (st : GpuState) :
    ((cpuClassifyNode env bl tau agrid cpos node).boundary =
        (cpuScan (bl.map fun b => env.calc_dist b cpos)).2.toNat + 1 ↔
      ((cpuScan (bl.map fun b => env.calc_dist b cpos)).1 ≤ 0 ∧ bl ≠ [])) ∧
    ((cpuClassifyNode env bl tau agrid cpos node).boundary = 0 ↔
      ¬ ((cpuScan (bl.map fun b => env.calc_dist b cpos)).1 ≤ 0 ∧ bl ≠ [])) ∧
    (((gpuNodeStep env ek p ws bl x y z st).boundary_node_list =
        st.boundary_node_list ++ [x + p.dim_x * y + p.dim_x * p.dim_y * z] ∧
      (gpuNodeStep env ek p ws bl x y z st).boundary_index_list =
        st.boundary_index_list ++
          [(cpuScan (bl.map fun b =>
              env.calc_dist b (gpuNodePos p x y z))).2.toNat + 1]) ↔
      ((cpuScan (bl.map fun b => env.calc_dist b (gpuNodePos p x y z))).1 ≤ 0 ∧
        bl ≠ [])) := by
  refine ⟨?_, ?_, ?_⟩
  · simp only [cpuClassifyNode]
    split_ifs with h
    · exact ⟨fun _ => ⟨h.1, h.2.2⟩, fun _ => rfl⟩
    · constructor
      · intro heq
        exact absurd heq (by simp)
      · intro hc
        exact absurd ⟨hc.1, cpuScan_snd_nonneg _ (map_dist_ne_nil env cpos bl hc.2),
          hc.2⟩ h
  · simp only [cpuClassifyNode]
    split_ifs with h
    · constructor
      · intro heq
        exact absurd heq.symm (by simp)
      · intro hc
        exact absurd ⟨h.1, h.2.2⟩ hc
    · exact ⟨fun _ => fun hc =>
        absurd ⟨hc.1, cpuScan_snd_nonneg _ (map_dist_ne_nil env cpos bl hc.2),
          hc.2⟩ h, fun _ => rfl⟩
  · rw [gpuNodeStep_node_list, gpuNodeStep_index_list]
    by_cases hc : (cpuScan (bl.map fun b =>
        env.calc_dist b (gpuNodePos p x y z))).1 ≤ 0 ∧ bl ≠ []
    · rw [if_pos ((gpu_owned_cond_iff env ek _ bl _ _).mpr hc),
        if_pos ((gpu_owned_cond_iff env ek _ bl _ _).mpr hc),
        gpu_loop_bnum_of_ne_nil env ek _ bl _ _ hc.2]
      exact ⟨fun _ => hc, fun _ => ⟨rfl, rfl⟩⟩
    · rw [if_neg (fun ho => hc ((gpu_owned_cond_iff env ek _ bl _ _).mp ho)),
        if_neg (fun ho => hc ((gpu_owned_cond_iff env ek _ bl _ _).mp ho))]
      constructor
      · intro heq
        exact absurd heq.1 (by simp)
      · intro h
        exact absurd h hc

/-- C5 counterexample: with an empty registry, the fluid branch (line 267)
writes only the boundary flag, so a node whose slip velocity was nonzero
before the pass keeps it: on a 1×1×1 local grid with every node's slip
velocity `(1,0,0)` before the pass, node 0 still has slip velocity `(1,0,0)`
(and not the zero vector) afterwards, even though its flag is 0. -/
theorem empty_registry_stale_slip_velocity :
    (lb_init_boundaries_cpu ⟨fun _ _ => 0, fun _ => Vec3.zero, fun _ => 0⟩ []
        ⟨1, 1, 1, 0, 0, 0, 1, 1⟩ (fun _ => ⟨5, ⟨1, 0, 0⟩⟩) 0).boundary = 0 ∧
    (lb_init_boundaries_cpu ⟨fun _ _ => 0, fun _ => Vec3.zero, fun _ => 0⟩ []
        ⟨1, 1, 1, 0, 0, 0, 1, 1⟩ (fun _ => ⟨5, ⟨1, 0, 0⟩⟩) 0).slip_velocity ≠
      Vec3.zero := by
  have h27 : ¬ haloVolume ⟨1, 1, 1, 0, 0, 0, 1, 1⟩ = 0 := by decide
  have h0 : (0 : ℕ) < haloVolume ⟨1, 1, 1, 0, 0, 0, 1, 1⟩ := by decide
  constructor
  · rw [lb_init_boundaries_cpu, if_neg h27]
    simp only [cpuSweep]
    rw [if_pos h0]
    simp only [cpuClassifyNode]
    rw [if_neg (fun hc => hc.2.2 rfl)]
  · rw [lb_init_boundaries_cpu, if_neg h27]
    simp only [cpuSweep]
    rw [if_pos h0]
    simp only [cpuClassifyNode]
    rw [if_neg (fun hc => hc.2.2 rfl)]
    simp only [zeroBoundaryFlags]
    rw [if_pos h0]
    decide

/-- C5 amended: when the boundary registry is empty, after a classification
pass every halo node's boundary flag is 0 (fluid); slip velocities are left
exactly as they were before the pass (the fluid branch never writes them), so
they are the zero vector only if they already were. -/
theorem empty_registry_all_fluid (env : BoundaryEnv) (p : CpuLattice)
    (fields : ℕ → LBFields) (i : ℕ) :
    (i < haloVolume p → (lb_init_boundaries_cpu env [] p fields i).boundary = 0) ∧
    (lb_init_boundaries_cpu env [] p fields i).slip_velocity =
      (fields i).slip_velocity := by
  have hclassify : ∀ pos node,
      cpuClassifyNode env [] p.tau p.agrid pos node = { node with boundary := 0 } := by
    intro pos node
    simp only [cpuClassifyNode]
    rw [if_neg (fun hc => hc.2.2 rfl)]
  rw [lb_init_boundaries_cpu]
  split_ifs with hv
  · constructor
    · intro hi
      exact absurd hi (by omega)
    · rw [zeroBoundaryFlags]
      split_ifs <;> rfl
  · constructor
    · intro hi
      simp only [cpuSweep]
      rw [if_pos hi, hclassify]
    · simp only [cpuSweep]
      split_ifs with hi
      · rw [hclassify]
        simp only [zeroBoundaryFlags]
        rw [if_pos hi]
      · simp only [zeroBoundaryFlags]
        rw [if_neg hi]

/-- Witness for the amended C5 on a concrete 1×1×1 grid: node 0 classifies
as fluid and its slip velocity is exactly its pre-pass value. -/
theorem empty_registry_all_fluid_witness :
    (lb_init_boundaries_cpu ⟨fun _ _ => 0, fun _ => Vec3.zero, fun _ => 0⟩ []
        ⟨1, 1, 1, 0, 0, 0, 1, 1⟩ (fun _ => ⟨5, ⟨1, 0, 0⟩⟩) 0).boundary = 0 ∧
    (lb_init_boundaries_cpu ⟨fun _ _ => 0, fun _ => Vec3.zero, fun _ => 0⟩ []
        ⟨1, 1, 1, 0, 0, 0, 1, 1⟩ (fun _ => ⟨5, ⟨1, 0, 0⟩⟩) 0).slip_velocity =
      ((fun _ => (⟨5, ⟨1, 0, 0⟩⟩ : LBFields)) 0).slip_velocity :=
  ⟨(empty_registry_all_fluid ⟨fun _ _ => 0, fun _ => Vec3.zero, fun _ => 0⟩
      ⟨1, 1, 1, 0, 0, 0, 1, 1⟩ (fun _ => ⟨5, ⟨1, 0, 0⟩⟩) 0).1 (by decide),
   (empty_registry_all_fluid ⟨fun _ _ => 0, fun _ => Vec3.zero, fun _ => 0⟩
      ⟨1, 1, 1, 0, 0, 0, 1, 1⟩ (fun _ => ⟨5, ⟨1, 0, 0⟩⟩) 0).2⟩

lemma gpu_pass_net_charge (env : BoundaryEnv) (ek : EkParams) (p : GpuLattice)
    (bl : List ℕ) (q0 gathered : ℕ → ℚ) (b : ℕ) :
    (lb_init_boundaries_gpu env ek p bl q0 gathered).state.net_charge b =
      resetNetCharge bl q0 b + sweepAccum env ek p bl b := by
  simp only [lb_init_boundaries_gpu]
  exact gpuSweep_net_charge env ek p _ bl _ b

/-- C9: classification is idempotent.  CPU: running the pass twice over the
field array yields the same per-node boundary flags and slip velocities as
running it once.  GPU: feeding the net charges produced by one pass back into
a second pass reproduces them, and the compacted boundary-node/index lists
and the wall-charge buffer do not depend on the incoming net-charge state at
all. -/
theorem classification_idempotent (env : BoundaryEnv) (bl : List ℕ)
    (p : CpuLattice) (ek : EkParams) (gp : GpuLattice) (fields : ℕ → LBFields)
    (i : ℕ) (q0 gathered : ℕ → ℚ) (b : ℕ) :
    lb_init_boundaries_cpu env bl p (lb_init_boundaries_cpu env bl p fields) i =
      lb_init_boundaries_cpu env bl p fields i ∧
    (lb_init_boundaries_gpu env ek gp bl
        (lb_init_boundaries_gpu env ek gp bl q0 gathered).state.net_charge
        gathered).state.net_charge b =
      (lb_init_boundaries_gpu env ek gp bl q0 gathered).state.net_charge b ∧
    (lb_init_boundaries_gpu env ek gp bl
        (lb_init_boundaries_gpu env ek gp bl q0 gathered).state.net_charge
        gathered).state.boundary_node_list =
      (lb_init_boundaries_gpu env ek gp bl q0 gathered).state.boundary_node_list ∧
    (lb_init_boundaries_gpu env ek gp bl
        (lb_init_boundaries_gpu env ek gp bl q0 gathered).state.net_charge
        gathered).state.boundary_index_list =
      (lb_init_boundaries_gpu env ek gp bl q0 gathered).state.boundary_index_list ∧
    (lb_init_boundaries_gpu env ek gp bl
        (lb_init_boundaries_gpu env ek gp bl q0 gathered).state.net_charge
        gathered).state.wallcharge =
      (lb_init_boundaries_gpu env ek gp bl q0 gathered).state.wallcharge := by
  have hcongr := gpuSweep_congr env ek gp
      (if ek.ek_initialized then wallchargeSpecies ek else -1) bl
      { boundary_node_list := [], boundary_index_list := [],
        boundary_number := -1,
        net_charge := resetNetCharge bl
          (lb_init_boundaries_gpu env ek gp bl q0 gathered).state.net_charge,
        wallcharge := if ek.ek_initialized then gathered else fun _ => 0 }
      { boundary_node_list := [], boundary_index_list := [],
        boundary_number := -1, net_charge := resetNetCharge bl q0,
        wallcharge := if ek.ek_initialized then gathered else fun _ => 0 }
      rfl rfl rfl rfl
  refine ⟨?_, ?_, ?_, ?_, ?_⟩
  · -- CPU part
    by_cases hv : haloVolume p = 0
    · simp only [lb_init_boundaries_cpu, if_pos hv, hv]
      simp [zeroBoundaryFlags]
    · simp only [lb_init_boundaries_cpu, if_neg hv, cpuSweep, zeroBoundaryFlags]
      split_ifs with hi
      · simp only [cpuClassifyNode]
        split_ifs with hcond
        · rfl
        · rfl
      · rfl
  · -- GPU net charge part
    rw [gpu_pass_net_charge, gpu_pass_net_charge]
    by_cases hb : b ∈ bl
    · simp only [resetNetCharge, if_pos hb]
    · simp only [resetNetCharge, if_neg hb]
      rw [gpu_pass_net_charge]
      simp only [resetNetCharge, if_neg hb,
        sweepAccum_not_mem env ek gp bl b hb, add_zero]
  · -- GPU boundary-node list
    simp only [lb_init_boundaries_gpu]
    exact hcongr.1
  · -- GPU boundary-index list
    simp only [lb_init_boundaries_gpu]
    exact hcongr.2.1
  · -- GPU wall-charge buffer
    simp only [lb_init_boundaries_gpu]
    exact hcongr.2.2.2

lemma sum_map_ite_const {α : Type} (P : α → Prop) [DecidablePred P] (v : ℚ) :
    ∀ cs : List α,
      (cs.map fun c => if P c then v else 0).sum =
        ((cs.filter fun c => decide (P c)).length : ℚ) * v := by
  intro cs
  induction cs with
  | nil => simp
  | cons c rest ih =>
    rw [List.map_cons, List.sum_cons, ih, List.filter_cons]
    by_cases hc : P c
    · rw [if_pos hc, if_pos (decide_eq_true hc), List.length_cons]
      push_cast
      ring
    · rw [if_neg hc, if_neg (by simp [decide_eq_false hc]), zero_add]

/-- C3 counterexample: two overlapping charged boundaries on a 1×1×1 GPU
grid, boundary 0 at distance −1 (the owner, stored index 0 + 1 = 1 in the
compacted list) and boundary 1 at distance −1/2, both with charge density 1
and `agrid = 1`.  The pass accumulates cell charge into boundary 1's net
charge as well (its final net charge is 1, not 0), so charge is **not**
accumulated only into the owner's net charge. -/
theorem charge_accumulated_into_non_owner :
    (lb_init_boundaries_gpu
        ⟨fun b _ => if b = 0 then -1 else -1/2, fun _ => Vec3.zero, fun _ => 1⟩
        ⟨true, 1, 1, 1, fun _ => 1, 1⟩ ⟨1, 1, 1, 1⟩ [0, 1]
        (fun _ => 0) (fun _ => 0)).state.boundary_index_list = [1] ∧
    (lb_init_boundaries_gpu
        ⟨fun b _ => if b = 0 then -1 else -1/2, fun _ => Vec3.zero, fun _ => 1⟩
        ⟨true, 1, 1, 1, fun _ => 1, 1⟩ ⟨1, 1, 1, 1⟩ [0, 1]
        (fun _ => 0) (fun _ => 0)).state.net_charge 1 = 1 ∧
    (1 : ℚ) ≠ 0 := by
  have hm : [0, 1].map (fun b =>
      (⟨fun b _ => if b = 0 then -1 else -1/2, fun _ => Vec3.zero, fun _ => 1⟩ :
        BoundaryEnv).calc_dist b (gpuNodePos ⟨1, 1, 1, 1⟩ 0 0 0)) =
      [-1, -1/2] := rfl
  have hbp : bestPair [-1, -1/2] = (-1, 0) := by
    rw [bestPair_cons_cons, bestPair_singleton, if_neg (by norm_num)]
  have hscan : cpuScan [-1, -1/2] = (-1, Int.ofNat 0) := by
    rw [cpuScan_eq_bestPair _ (by simp), hbp]
  refine ⟨?_, ?_, by norm_num⟩
  · have h1 : (lb_init_boundaries_gpu
        ⟨fun b _ => if b = 0 then -1 else -1/2, fun _ => Vec3.zero, fun _ => 1⟩
        ⟨true, 1, 1, 1, fun _ => 1, 1⟩ ⟨1, 1, 1, 1⟩ [0, 1]
        (fun _ => 0) (fun _ => 0)).state =
        gpuNodeStep
          ⟨fun b _ => if b = 0 then -1 else -1/2, fun _ => Vec3.zero, fun _ => 1⟩
          ⟨true, 1, 1, 1, fun _ => 1, 1⟩ ⟨1, 1, 1, 1⟩
          (wallchargeSpecies ⟨true, 1, 1, 1, fun _ => 1, 1⟩) [0, 1] 0 0 0
          { boundary_node_list := [], boundary_index_list := [],
            boundary_number := -1,
            net_charge := resetNetCharge [0, 1] (fun _ => 0),
            wallcharge := fun _ => 0 } := rfl
    rw [h1, gpuNodeStep_index_list,
      if_pos ((gpu_owned_cond_iff _ _ _ _ _ _).mpr
        ⟨by rw [hm, hscan]; norm_num, by decide⟩),
      gpu_loop_bnum_of_ne_nil _ _ _ _ _ _ (by decide), hm, hscan]
    rfl
  · rw [gpu_pass_net_charge]
    norm_num [resetNetCharge, sweepAccum, gpuNodeList, loopAccum, cellVolume,
      gpuNodePos]
    have hr : List.range 1 = [0] := rfl
    simp [hr, Function.comp]

/-- C3 amended: during the GPU sweep with electrokinetics initialised,
`charge_density * agrid^3` is accumulated into the net charge of **every**
boundary occurrence reporting distance ≤ 0 with nonzero charge density at the
node (not only the owner's) — formula (a); the node's wall-charge buffer
entry receives the **sum** of those contributions divided by the carrier
species' valency — formula (b); consequently a single charged boundary's net
charge after the pass equals (number of nodes it owns) × cell volume × its
charge density — formula (c). -/
theorem charge_accumulation_per_boundary (env : BoundaryEnv) (ek : EkParams)
    (p : GpuLattice) (ws : ℤ) (bl : List ℕ) (x y z : ℕ) (st : GpuState)
    (q b : ℕ) (q0 gathered : ℕ → ℚ)
    (hek : ek.ek_initialized = true) (hd : env.charge_density b ≠ 0) :
    (gpuNodeStep env ek p ws bl x y z st).net_charge q =
      st.net_charge q + loopAccum env ek (gpuNodePos p x y z) bl q ∧
    ((ws ≠ -1 ∧
        (gpuBoundaryLoop env ek (gpuNodePos p x y z) bl 0
          ⟨INIT_DIST, st.boundary_number, false, 0,
            st.net_charge⟩).node_charged = true) →
      (gpuNodeStep env ek p ws bl x y z st).wallcharge
          (ek.dim_y * ek.dim_x * z + ek.dim_x * y + x) =
        nodeChargeSum env ek (gpuNodePos p x y z) bl / ek.valency ws.toNat) ∧
    (lb_init_boundaries_gpu env ek p [b] q0 gathered).state.net_charge b =
      (((gpuNodeList p).filter fun c =>
          decide (env.calc_dist b (gpuNodePos p c.1 c.2.1 c.2.2) ≤ 0)).length : ℚ) *
        (env.charge_density b * cellVolume ek) := by
  refine ⟨gpuNodeStep_net_charge env ek p ws bl x y z st q, ?_, ?_⟩
  · intro hwc
    rw [gpuNodeStep_wallcharge, if_pos ⟨hek, hwc.1, hwc.2⟩]
    simp only []
    rw [if_pos trivial, gpuBoundaryLoop_node_wallcharge,
      show (⟨INIT_DIST, st.boundary_number, false, 0, st.net_charge⟩ :
        GpuScanState).node_wallcharge = 0 from rfl, zero_add]
  · rw [gpu_pass_net_charge]
    have hres : resetNetCharge [b] q0 b = 0 := by
      simp [resetNetCharge]
    rw [hres, zero_add, sweepAccum]
    have hloop : ∀ pos, loopAccum env ek pos [b] b =
        if env.calc_dist b pos ≤ 0 then
          env.charge_density b * cellVolume ek else 0 := by
      intro pos
      rw [loopAccum]
      by_cases hdist : env.calc_dist b pos ≤ 0
      · rw [if_pos ⟨hek, hdist, hd⟩, if_pos hdist]
        simp
      · rw [if_neg (fun hc => hdist hc.2.1), if_neg hdist]
    simp only [hloop]
    exact sum_map_ite_const _ _ (gpuNodeList p)

set_option maxRecDepth 8000 in
/-- Witness for the amended C3: one boundary at distance −1 everywhere with
charge density 2 on a 1×1×1 grid with unit cells; its net charge after the
pass is `1 * (2 * 1) = 2`, and the wall-charge buffer entry of the single
node is the contribution sum divided by valency 1. -/
theorem charge_accumulation_per_boundary_witness :
    (gpuNodeStep ⟨fun _ _ => -1, fun _ => Vec3.zero, fun _ => 2⟩
        ⟨true, 1, 1, 1, fun _ => 1, 1⟩ ⟨1, 1, 1, 1⟩ 0 [0] 0 0 0
        ⟨[], [], -1, fun _ => 0, fun _ => 0⟩).net_charge 0 =
      (⟨[], [], -1, fun _ => 0, fun _ => 0⟩ : GpuState).net_charge 0 +
        loopAccum ⟨fun _ _ => -1, fun _ => Vec3.zero, fun _ => 2⟩
          ⟨true, 1, 1, 1, fun _ => 1, 1⟩
          (gpuNodePos ⟨1, 1, 1, 1⟩ 0 0 0) [0] 0 ∧
    (gpuNodeStep ⟨fun _ _ => -1, fun _ => Vec3.zero, fun _ => 2⟩
        ⟨true, 1, 1, 1, fun _ => 1, 1⟩ ⟨1, 1, 1, 1⟩ 0 [0] 0 0 0
        ⟨[], [], -1, fun _ => 0, fun _ => 0⟩).wallcharge
        (1 * 1 * 0 + 1 * 0 + 0) =
      nodeChargeSum ⟨fun _ _ => -1, fun _ => Vec3.zero, fun _ => 2⟩
          ⟨true, 1, 1, 1, fun _ => 1, 1⟩ (gpuNodePos ⟨1, 1, 1, 1⟩ 0 0 0) [0] /
        (⟨true, 1, 1, 1, fun _ => 1, 1⟩ : EkParams).valency (0 : ℤ).toNat ∧
    (lb_init_boundaries_gpu ⟨fun _ _ => -1, fun _ => Vec3.zero, fun _ => 2⟩
        ⟨true, 1, 1, 1, fun _ => 1, 1⟩ ⟨1, 1, 1, 1⟩ [0]
        (fun _ => 0) (fun _ => 0)).state.net_charge 0 =
      (((gpuNodeList ⟨1, 1, 1, 1⟩).filter fun c =>
          decide ((⟨fun _ _ => -1, fun _ => Vec3.zero, fun _ => 2⟩ :
            BoundaryEnv).calc_dist 0
              (gpuNodePos ⟨1, 1, 1, 1⟩ c.1 c.2.1 c.2.2) ≤ 0)).length : ℚ) *
        ((⟨fun _ _ => -1, fun _ => Vec3.zero, fun _ => 2⟩ :
          BoundaryEnv).charge_density 0 *
          cellVolume ⟨true, 1, 1, 1, fun _ => 1, 1⟩) := by
  have h := charge_accumulation_per_boundary
    ⟨fun _ _ => -1, fun _ => Vec3.zero, fun _ => 2⟩
    ⟨true, 1, 1, 1, fun _ => 1, 1⟩ ⟨1, 1, 1, 1⟩ 0 [0] 0 0 0
    ⟨[], [], -1, fun _ => 0, fun _ => 0⟩ 0 0 (fun _ => 0) (fun _ => 0)
    rfl (by norm_num)
  have hws : (0 : ℤ) ≠ -1 := by decide
  have hch : (gpuBoundaryLoop ⟨fun _ _ => -1, fun _ => Vec3.zero, fun _ => 2⟩
      ⟨true, 1, 1, 1, fun _ => 1, 1⟩ (gpuNodePos ⟨1, 1, 1, 1⟩ 0 0 0) [0] 0
      ⟨INIT_DIST,
        (⟨[], [], -1, fun _ => 0, fun _ => 0⟩ : GpuState).boundary_number,
        false, 0,
        (⟨[], [], -1, fun _ => 0, fun _ => 0⟩ : GpuState).net_charge⟩).node_charged =
      true := by
    rw [gpuBoundaryLoop_node_charged]
    simp
  exact ⟨h.1, h.2.1 ⟨hws, hch⟩, h.2.2⟩

lemma foldl_nodeStep_wallcharge_uncharged (env : BoundaryEnv) (ek : EkParams)
    (p : GpuLattice) (ws : ℤ) (bl : List ℕ)
    (hd : ∀ c, env.charge_density c = 0) :
    ∀ (cs : List (ℕ × ℕ × ℕ)) (st : GpuState),
      (cs.foldl (fun st c => gpuNodeStep env ek p ws bl c.1 c.2.1 c.2.2 st)
          st).wallcharge = st.wallcharge := by
  intro cs
  induction cs with
  | nil => intro st; rfl
  | cons c rest ih =>
    intro st
    rw [List.foldl_cons, ih, gpuNodeStep_wallcharge, if_neg ?_]
    intro hc
    have h2 := hc.2.2
    rw [gpuBoundaryLoop_node_charged] at h2
    have hany : (bl.any fun b =>
        decide (env.calc_dist b (gpuNodePos p c.1 c.2.1 c.2.2) ≤ 0 ∧
          env.charge_density b ≠ 0)) = false := by
      rw [List.any_eq_false]
      intro x _
      simp [hd x]
    rw [hany] at h2
    simp at h2

set_option maxRecDepth 8000 in
/-- C4 counterexample: the host wall-charge buffer is seeded from the
pre-pass device gather (`ek_gather_wallcharge_species_density`, lines
108-109) and written back only at charged nodes (lines 176-181).  With an
empty registry (the charged boundary has just been removed) and a gathered
buffer holding the stale value 7 at node 0, the pass's resulting buffer
entry is still 7 — stale charge state from before the boundary-set mutation
does persist into the results, contradicting the claim's "node buffer
rebuilt / no stale charge state persists". -/
theorem stale_wallcharge_persists :
    (lb_init_boundaries_gpu ⟨fun _ _ => 1, fun _ => Vec3.zero, fun _ => 0⟩
        ⟨true, 1, 1, 1, fun _ => 1, 1⟩ ⟨1, 1, 1, 1⟩ []
        (fun _ => 0) (fun _ => 7)).state.wallcharge 0 = 7 ∧
    (7 : ℚ) ≠ 0 := by
  constructor
  · have h1 : (lb_init_boundaries_gpu
        ⟨fun _ _ => 1, fun _ => Vec3.zero, fun _ => 0⟩
        ⟨true, 1, 1, 1, fun _ => 1, 1⟩ ⟨1, 1, 1, 1⟩ []
        (fun _ => 0) (fun _ => 7)).state =
        gpuNodeStep ⟨fun _ _ => 1, fun _ => Vec3.zero, fun _ => 0⟩
          ⟨true, 1, 1, 1, fun _ => 1, 1⟩ ⟨1, 1, 1, 1⟩
          (wallchargeSpecies ⟨true, 1, 1, 1, fun _ => 1, 1⟩) [] 0 0 0
          { boundary_node_list := [], boundary_index_list := [],
            boundary_number := -1,
            net_charge := resetNetCharge [] (fun _ => 0),
            wallcharge := fun _ => 7 } := rfl
    rw [h1, gpuNodeStep_wallcharge, if_neg ?_]
    intro hc
    have h2 := hc.2.2
    rw [gpuBoundaryLoop_nil] at h2
    simp at h2
  · norm_num

/-- C4 amended: on every GPU classification pass each boundary's net charge
is fully recomputed from scratch — reset to zero before the sweep
(lines 89-91) and rebuilt purely from the current registry — so the pass's
net charges, compacted lists and wall-charge buffer are all independent of
the incoming net-charge state.  The per-node wall-charge buffer, however, is
not rebuilt from nothing: it is seeded from the pre-pass gathered species
density and overwritten only at charged nodes, so entries at uncharged nodes
carry the gathered (possibly stale) values into the pass's results — shown
here for a pass in which no boundary is charged, where the whole buffer
equals the gathered state. -/
theorem charge_state_recomputed (env : BoundaryEnv) (ek : EkParams)
    (p : GpuLattice) (bl : List ℕ) (q0 q1 gathered : ℕ → ℚ) (b : ℕ)
    (hb : b ∈ bl) :
    (lb_init_boundaries_gpu env ek p bl q0 gathered).state.net_charge b =
      sweepAccum env ek p bl b ∧
    (lb_init_boundaries_gpu env ek p bl q0 gathered).state.net_charge b =
      (lb_init_boundaries_gpu env ek p bl q1 gathered).state.net_charge b ∧
    (lb_init_boundaries_gpu env ek p bl q0 gathered).state.boundary_node_list =
      (lb_init_boundaries_gpu env ek p bl q1 gathered).state.boundary_node_list ∧
    (lb_init_boundaries_gpu env ek p bl q0 gathered).state.boundary_index_list =
      (lb_init_boundaries_gpu env ek p bl q1 gathered).state.boundary_index_list ∧
    (lb_init_boundaries_gpu env ek p bl q0 gathered).state.wallcharge =
      (lb_init_boundaries_gpu env ek p bl q1 gathered).state.wallcharge ∧
    (ek.ek_initialized = true → (∀ c, env.charge_density c = 0) →
      (lb_init_boundaries_gpu env ek p bl q0 gathered).state.wallcharge =
        gathered) := by
  have hcongr := gpuSweep_congr env ek p
      (if ek.ek_initialized then wallchargeSpecies ek else -1) bl
      { boundary_node_list := [], boundary_index_list := [],
        boundary_number := -1, net_charge := resetNetCharge bl q0,
        wallcharge := if ek.ek_initialized then gathered else fun _ => 0 }
      { boundary_node_list := [], boundary_index_list := [],
        boundary_number := -1, net_charge := resetNetCharge bl q1,
        wallcharge := if ek.ek_initialized then gathered else fun _ => 0 }
      rfl rfl rfl rfl
  refine ⟨?_, ?_, ?_, ?_, ?_, ?_⟩
  · rw [gpu_pass_net_charge]
    simp only [resetNetCharge, if_pos hb, zero_add]
  · rw [gpu_pass_net_charge, gpu_pass_net_charge]
    simp only [resetNetCharge, if_pos hb]
  · simp only [lb_init_boundaries_gpu]
    exact hcongr.1
  · simp only [lb_init_boundaries_gpu]
    exact hcongr.2.1
  · simp only [lb_init_boundaries_gpu]
    exact hcongr.2.2.2
  · intro hek hd
    simp only [lb_init_boundaries_gpu, gpuSweep]
    rw [foldl_nodeStep_wallcharge_uncharged env ek p _ bl hd (gpuNodeList p)]
    show (if ek.ek_initialized = true then gathered else fun _ => 0) = gathered
    rw [if_pos hek]

/-- Witness for the amended C4: one registered uncharged boundary, incoming
net-charge states `5` and `0`, gathered buffer constantly `7`; the pass's
outputs coincide, the net charge is the zero-based recomputation, and the
buffer is exactly the gathered state. -/
theorem charge_state_recomputed_witness :
    (lb_init_boundaries_gpu ⟨fun _ _ => 1, fun _ => Vec3.zero, fun _ => 0⟩
        ⟨true, 1, 1, 1, fun _ => 1, 1⟩ ⟨1, 1, 1, 1⟩ [0]
        (fun _ => 5) (fun _ => 7)).state.net_charge 0 =
      sweepAccum ⟨fun _ _ => 1, fun _ => Vec3.zero, fun _ => 0⟩
        ⟨true, 1, 1, 1, fun _ => 1, 1⟩ ⟨1, 1, 1, 1⟩ [0] 0 ∧
    (lb_init_boundaries_gpu ⟨fun _ _ => 1, fun _ => Vec3.zero, fun _ => 0⟩
        ⟨true, 1, 1, 1, fun _ => 1, 1⟩ ⟨1, 1, 1, 1⟩ [0]
        (fun _ => 5) (fun _ => 7)).state.net_charge 0 =
      (lb_init_boundaries_gpu ⟨fun _ _ => 1, fun _ => Vec3.zero, fun _ => 0⟩
        ⟨true, 1, 1, 1, fun _ => 1, 1⟩ ⟨1, 1, 1, 1⟩ [0]
        (fun _ => 0) (fun _ => 7)).state.net_charge 0 ∧
    (lb_init_boundaries_gpu ⟨fun _ _ => 1, fun _ => Vec3.zero, fun _ => 0⟩
        ⟨true, 1, 1, 1, fun _ => 1, 1⟩ ⟨1, 1, 1, 1⟩ [0]
        (fun _ => 5) (fun _ => 7)).state.boundary_node_list =
      (lb_init_boundaries_gpu ⟨fun _ _ => 1, fun _ => Vec3.zero, fun _ => 0⟩
        ⟨true, 1, 1, 1, fun _ => 1, 1⟩ ⟨1, 1, 1, 1⟩ [0]
        (fun _ => 0) (fun _ => 7)).state.boundary_node_list ∧
    (lb_init_boundaries_gpu ⟨fun _ _ => 1, fun _ => Vec3.zero, fun _ => 0⟩
        ⟨true, 1, 1, 1, fun _ => 1, 1⟩ ⟨1, 1, 1, 1⟩ [0]
        (fun _ => 5) (fun _ => 7)).state.boundary_index_list =
      (lb_init_boundaries_gpu ⟨fun _ _ => 1, fun _ => Vec3.zero, fun _ => 0⟩
        ⟨true, 1, 1, 1, fun _ => 1, 1⟩ ⟨1, 1, 1, 1⟩ [0]
        (fun _ => 0) (fun _ => 7)).state.boundary_index_list ∧
    (lb_init_boundaries_gpu ⟨fun _ _ => 1, fun _ => Vec3.zero, fun _ => 0⟩
        ⟨true, 1, 1, 1, fun _ => 1, 1⟩ ⟨1, 1, 1, 1⟩ [0]
        (fun _ => 5) (fun _ => 7)).state.wallcharge =
      (lb_init_boundaries_gpu ⟨fun _ _ => 1, fun _ => Vec3.zero, fun _ => 0⟩
        ⟨true, 1, 1, 1, fun _ => 1, 1⟩ ⟨1, 1, 1, 1⟩ [0]
        (fun _ => 0) (fun _ => 7)).state.wallcharge ∧
    (lb_init_boundaries_gpu ⟨fun _ _ => 1, fun _ => Vec3.zero, fun _ => 0⟩
        ⟨true, 1, 1, 1, fun _ => 1, 1⟩ ⟨1, 1, 1, 1⟩ [0]
        (fun _ => 5) (fun _ => 7)).state.wallcharge = (fun _ => 7) :=
  have h := charge_state_recomputed
    ⟨fun _ _ => 1, fun _ => Vec3.zero, fun _ => 0⟩
    ⟨true, 1, 1, 1, fun _ => 1, 1⟩ ⟨1, 1, 1, 1⟩ [0]
    (fun _ => 5) (fun _ => 0) (fun _ => 7) 0 (by decide)
  ⟨h.1, h.2.1, h.2.2.1, h.2.2.2.1, h.2.2.2.2.1,
    h.2.2.2.2.2 rfl (fun _ => rfl)⟩

lemma wallchargeSpecies_eq_neg_one (ek : EkParams)
    (hval : ∀ n < ek.number_of_species, ek.valency n = 0) :
    wallchargeSpecies ek = -1 := by
  rw [wallchargeSpecies, List.find?_eq_none.mpr ?_]
  intro n hn
  simp [hval n (List.mem_range.mp hn)]

/-- C7: when electrokinetics is initialised, at least one registered boundary
carries nonzero charge density, and no species has nonzero valency, exactly
one message is emitted through the runtime-error channel
(`runtimeErrorMsg()`, lines 111-114) and the sweep still runs to completion
over the whole grid, producing the full classification state. -/
theorem charged_without_species_reports_once (env : BoundaryEnv)
    (ek : EkParams) (p : GpuLattice) (bl : List ℕ) (q0 gathered : ℕ → ℚ)
    (hek : ek.ek_initialized = true)
    (hch : ∃ b ∈ bl, env.charge_density b ≠ 0)
    (hval : ∀ n < ek.number_of_species, ek.valency n = 0) :
    (lb_init_boundaries_gpu env ek p bl q0 gathered).error_count = 1 ∧
    (lb_init_boundaries_gpu env ek p bl q0 gathered).state =
      gpuSweep env ek p (wallchargeSpecies ek) bl
        { boundary_node_list := [], boundary_index_list := [],
          boundary_number := -1, net_charge := resetNetCharge bl q0,
          wallcharge := gathered } := by
  have hcb : chargedBoundaries env bl = true := by
    rcases hch with ⟨b, hbmem, hbd⟩
    rw [chargedBoundaries, List.any_eq_true]
    exact ⟨b, hbmem, decide_eq_true hbd⟩
  constructor
  · simp only [lb_init_boundaries_gpu, ekErrorCount]
    rw [if_pos ⟨hek, wallchargeSpecies_eq_neg_one ek hval, hcb⟩]
  · simp only [lb_init_boundaries_gpu]
    rw [if_pos hek, if_pos hek]

/-- Witness for C7: one boundary with charge density 1, one species with
valency 0: one error message, and the state is the completed sweep. -/
theorem charged_without_species_reports_once_witness :
    (lb_init_boundaries_gpu ⟨fun _ _ => 0, fun _ => Vec3.zero, fun _ => 1⟩
        ⟨true, 1, 1, 1, fun _ => 0, 1⟩ ⟨1, 1, 1, 1⟩ [0]
        (fun _ => 0) (fun _ => 0)).error_count = 1 ∧
    (lb_init_boundaries_gpu ⟨fun _ _ => 0, fun _ => Vec3.zero, fun _ => 1⟩
        ⟨true, 1, 1, 1, fun _ => 0, 1⟩ ⟨1, 1, 1, 1⟩ [0]
        (fun _ => 0) (fun _ => 0)).state =
      gpuSweep ⟨fun _ _ => 0, fun _ => Vec3.zero, fun _ => 1⟩
        ⟨true, 1, 1, 1, fun _ => 0, 1⟩ ⟨1, 1, 1, 1⟩
        (wallchargeSpecies ⟨true, 1, 1, 1, fun _ => 0, 1⟩) [0]
        { boundary_node_list := [], boundary_index_list := [],
          boundary_number := -1,
          net_charge := resetNetCharge [0] (fun _ => 0),
          wallcharge := fun _ => 0 } :=
  charged_without_species_reports_once
    ⟨fun _ _ => 0, fun _ => Vec3.zero, fun _ => 1⟩
    ⟨true, 1, 1, 1, fun _ => 0, 1⟩ ⟨1, 1, 1, 1⟩ [0] (fun _ => 0) (fun _ => 0)
    rfl (by decide) (by decide)

lemma remove_not_mem (l : List ℕ) (b : ℕ) : b ∉ remove l b := by
  simp [remove]

lemma remove_count_other (l : List ℕ) (b x : ℕ) (h : x ≠ b) :
    (remove l b).count x = l.count x := by
  rw [remove, List.count_filter (by simpa using h)]

lemma remove_sublist (l : List ℕ) (b : ℕ) : List.Sublist (remove l b) l :=
  List.filter_sublist l

lemma remove_of_not_mem (l : List ℕ) (b : ℕ) (h : b ∉ l) : remove l b = l := by
  rw [remove, List.filter_eq_self]
  intro x hx
  have hxb : x ≠ b := fun he => h (he ▸ hx)
  simp [hxb]

/-- The behaviour claim C6 asserts, written out as its own definition for
comparison: delete only the **first** entity equal to the argument. -/
def removeFirstSpec (l : List ℕ) (b : ℕ) : List ℕ := l.erase b

/-- C6 counterexample: `remove` is the erase-remove idiom and deletes every
occurrence, so removing `b` from `[b, b]` leaves `[]`, not the `[b]` that
removing only the first occurrence would leave. -/
theorem remove_erases_every_occurrence :
    remove [5, 5] 5 = [] ∧ removeFirstSpec [5, 5] 5 = [5] ∧
    remove [5, 5] 5 ≠ removeFirstSpec [5, 5] 5 := by
  refine ⟨rfl, rfl, ?_⟩
  decide

/-- C6 amended: `remove(b)` removes **every** entry equal by identity to `b`
from the ordered sequence (keeping the others in order), is a no-op on the
sequence if `b` is absent, and in both cases calls `on_lbboundary_change`,
triggering a full re-classification; removal renumbers all subsequent
boundaries' indices (the survivors form a sublist). -/
theorem remove_characterisation (l : List ℕ) (b : ℕ) :
    b ∉ remove l b ∧
    (∀ x, x ≠ b → (remove l b).count x = l.count x) ∧
    List.Sublist (remove l b) l ∧
    (b ∉ l → remove l b = l) ∧
    (removeOp l b).2 = true ∧
    (removeOp l b).1 = remove l b :=
  ⟨remove_not_mem l b, fun x hx => remove_count_other l b x hx,
    remove_sublist l b, remove_of_not_mem l b, rfl, rfl⟩

/-- Witness for the amended C6 at concrete registries `[1, 2, 1]` and
`[2, 3]`. -/
theorem remove_characterisation_witness :
    1 ∉ remove [1, 2, 1] 1 ∧
    (remove [1, 2, 1] 1).count 2 = [1, 2, 1].count 2 ∧
    remove [2, 3] 1 = [2, 3] ∧
    (removeOp [1, 2, 1] 1).2 = true :=
  ⟨(remove_characterisation [1, 2, 1] 1).1,
   (remove_characterisation [1, 2, 1] 1).2.1 2 (by decide),
   (remove_characterisation [2, 3] 1).2.2.2.1 (by decide),
   (remove_characterisation [1, 2, 1] 1).2.2.2.2.1⟩

/-- The error text thrown by `lbboundary_get_force`
(lb_boundaries.cpp:284-286). -/
def unregisteredMsg : String :=
  "You probably tried to get the force of an lbboundary that was not added to system.lbboundaries."

/-- `lbboundary_get_force` (lb_boundaries.cpp:277-303): find the first
registry entry whose pointer equals the argument (`std::find_if`); if none,
throw the unregistered-boundary error; otherwise obtain the backend's flat
per-boundary force array (an external reduction or device read-back,
modelled by `forces`; it stays zero-filled when no backend is active) and
return the 3-vector at the found entry's slot. -/
def lbboundary_get_force (bl : List ℕ) (forces : ℕ → Vec3) (b : ℕ) :
    Except String Vec3 :=
  match bl.findIdx? (fun x => x == b) with
  | none => Except.error unregisteredMsg
  | some i => Except.ok (forces i)

/-- C8: the force query fails with the unregistered-boundary error iff the
reference is not found (by identity) in the current registry; when it is
found, no error is raised and the 3-vector at the boundary's slot of the
backend-aggregated force array is returned. -/
theorem get_force_spec (bl : List ℕ) (forces : ℕ → Vec3) (b : ℕ) :
    (lbboundary_get_force bl forces b = Except.error unregisteredMsg ↔
      b ∉ bl) ∧
    (∀ _ : b ∈ bl, lbboundary_get_force bl forces b =
      Except.ok (forces (bl.findIdx (fun x => x == b)))) := by
  by_cases hmem : b ∈ bl
  · cases hfi : bl.findIdx? (fun x => x == b) with
    | none =>
      have hfalse := List.findIdx?_eq_none_iff.mp hfi b hmem
      simp at hfalse
    | some i =>
      have hidx : bl.findIdx (fun x => x == b) = i :=
        (List.findIdx?_eq_some_iff_findIdx_eq.mp hfi).2
      rw [lbboundary_get_force, hfi]
      refine ⟨⟨fun he => absurd he (by simp), fun hnot => absurd hmem hnot⟩, ?_⟩
      intro _
      rw [hidx]
  · rw [lbboundary_get_force, List.findIdx?_eq_none_iff.mpr ?_]
    · exact ⟨⟨fun _ => hmem, fun _ => rfl⟩, fun h => absurd h hmem⟩
    · intro x hx
      have hxb : x ≠ b := fun he => hmem (he ▸ hx)
      simp [hxb]

/-- Witness for C8: registry `[7, 8]` with a force table; querying pointer
`9` fails with the unregistered-boundary error, querying pointer `8` returns
slot 1's vector. -/
theorem get_force_spec_witness :
    (lbboundary_get_force [7, 8] (fun i => ⟨(i : ℚ), 0, 0⟩) 9 =
      Except.error unregisteredMsg ↔ 9 ∉ [7, 8]) ∧
    lbboundary_get_force [7, 8] (fun i => ⟨(i : ℚ), 0, 0⟩) 8 =
      Except.ok ((fun i => (⟨(i : ℚ), 0, 0⟩ : Vec3))
        ([7, 8].findIdx (fun x => x == 8))) :=
  ⟨(get_force_spec [7, 8] (fun i => ⟨(i : ℚ), 0, 0⟩) 9).1,
   (get_force_spec [7, 8] (fun i => ⟨(i : ℚ), 0, 0⟩) 8).2 (by decide)⟩

/-- C10: `add` never fails and performs no duplicate check: it always
appends exactly one entry, so the same boundary pointer added twice occupies
two distinct indices; a subsequent `remove` then erases **every** entry
holding that pointer, not just one.  `add` also triggers the
re-classification event. -/
theorem add_no_duplicate_check (l : List ℕ) (b : ℕ) :
    (add l b).length = l.length + 1 ∧
    (add (add l b) b)[l.length]? = some b ∧
    (add (add l b) b)[l.length + 1]? = some b ∧
    (remove (add (add l b) b) b).count b = 0 ∧
    remove (add (add l b) b) b = remove l b ∧
    (addOp l b).2 = true := by
  refine ⟨by simp [add], ?_, ?_, ?_, ?_, rfl⟩
  · rw [add, add, List.getElem?_append_left (by simp),
      List.getElem?_concat_length]
  · rw [add, add]
    rw [show l.length + 1 = (l ++ [b]).length by simp,
      List.getElem?_concat_length]
  · exact List.count_eq_zero.mpr (remove_not_mem _ b)
  · simp [add, remove, List.filter_append]

end LBBoundaries
